import Mathlib

/-! # Memory bus and segment mapper (`src/core/bus.cpp`)

A shallow embedding of the bus dispatcher helpers, the timing model and the
CPU-side segment mapper, followed by the theorems about them.

Conventions of the embedding.

* `u32` values are natural numbers below `2 ^ 32`; every operation that can
  leave that range (`<<`, `+`) is reduced modulo `2 ^ 32` explicitly.
* `s32` / `TickCount` values are integers; every addition and subtraction of
  the timing model is wrapped to the signed 32-bit range by `wrapS32`.
* A C++ reference parameter `u32& value` becomes an input together with a
  returned component.
* Global objects are explicit state: `System` holds `g_bus`, the peripherals
  and the two outputs of the bus (TTY lines, code-page invalidations);
  `Machine` adds `CPU::g_state`. Every operation takes the state it touches
  and returns the state after it.
* Declarations that live in headers outside `bus.cpp` are either parameters
  (`BusConstants`) or definitions whose comment says what they are modelled
  from.
-/

namespace Duckstation

/-! ## Machine integers -/

/-- Truncation of a natural number to an unsigned 32-bit value. -/
def truncU32 (x : Nat) : Nat := x % 4294967296

/-- Bitwise complement of an unsigned 32-bit value (`~x` on a `u32`). -/
def notU32 (x : Nat) : Nat := 4294967295 ^^^ truncU32 x

/-- Left shift of an unsigned 32-bit value, reduced to 32 bits. -/
def shlU32 (x k : Nat) : Nat := truncU32 (x <<< k)

/-- Addition of unsigned 32-bit values. -/
def addU32 (x y : Nat) : Nat := truncU32 (x + y)

/-- Source `Truncate8`. -/
def Truncate8 (x : Nat) : Nat := x % 256

/-- Source `Truncate16`. -/
def Truncate16 (x : Nat) : Nat := x % 65536

/-- Two's-complement wrap of an integer to the signed 32-bit range. -/
def wrapS32 (x : Int) : Int := (x + 2147483648) % 4294967296 - 2147483648

/-- Signed 32-bit addition. -/
def addS32 (x y : Int) : Int := wrapS32 (x + y)

/-- Signed 32-bit subtraction. -/
def subS32 (x y : Int) : Int := wrapS32 (x - y)

/-- The type `TickCount`, a signed 32-bit integer. -/
abbrev TickCount := Int

/-! ## Access tags -/

/-- Source `MemoryAccessType`. -/
inductive MemoryAccessType where
  | Read
  | Write
  deriving DecidableEq, Repr

/-- Source `MemoryAccessSize`; the enumerators have the values 0, 1, 2. -/
inductive MemoryAccessSize where
  | Byte
  | HalfWord
  | Word
  deriving DecidableEq, Repr

/-! ## Lane fix-up helpers (lines 23-35) -/

/-- Source `FIXUP_WORD_READ_OFFSET(offset)`: `offset & ~u32(3)`. -/
def FIXUP_WORD_READ_OFFSET (offset : Nat) : Nat := offset &&& notU32 3

/-- Source `FIXUP_WORD_READ_VALUE(offset, value)`: `value >> ((offset & 3) * 8)`. -/
def FIXUP_WORD_READ_VALUE (offset value : Nat) : Nat := value >>> ((offset &&& 3) * 8)

/-- Source `FIXUP_HALFWORD_READ_OFFSET(offset)`: `offset & ~u32(1)`. -/
def FIXUP_HALFWORD_READ_OFFSET (offset : Nat) : Nat := offset &&& notU32 1

/-- Source `FIXUP_HALFWORD_READ_VALUE(offset, value)`: `value >> ((offset & 1) * 8)`. -/
def FIXUP_HALFWORD_READ_VALUE (offset value : Nat) : Nat := value >>> ((offset &&& 1) * 8)

/-- Source `FIXUP_HALFWORD_WRITE_VALUE(offset, value)`: `value << ((offset & 1) * 8)`. -/
def FIXUP_HALFWORD_WRITE_VALUE (offset value : Nat) : Nat := shlU32 value ((offset &&& 1) * 8)

/-- Source `FixupUnalignedWordAccessW32(offset, value)`: the offset is aligned down to
a multiple of four and the value is shifted LEFT by the byte offset times
eight. Both reference parameters are returned, offset first. -/
def FixupUnalignedWordAccessW32 (offset value : Nat) : Nat × Nat :=
  let byte_offset := offset &&& 3
  (offset &&& notU32 3, shlU32 value (byte_offset * 8))

/-! ## Memory-control registers -/

/-- Modelled from the spec: the bit-field declaration `MEMDELAY` of `bus.h`,
which is not among the sources. A delay/size register is a 32-bit word; the
spec names the fields `access_time` (4 bits) and the one-bit flags
`use_com0_time`, `use_com2_time`, `use_com3_time`, `data_bus_16bit`. The bit
positions are those of the console's delay/size register: read delay in
bits 4-7, the four "use COMn" flags in bits 8-11, the bus width in bit 12. -/
structure MEMDELAY where
  bits : Nat
  deriving DecidableEq, Repr

/-- Modelled from the spec: the bit-field declaration `COMDELAY` of `bus.h`,
which is not among the sources; `com0 .. com3` are the four low nibbles. -/
structure COMDELAY where
  bits : Nat
  deriving DecidableEq, Repr

namespace MEMDELAY

def access_time (m : MEMDELAY) : Nat := (m.bits >>> 4) &&& 15

def use_com0_time (m : MEMDELAY) : Bool := (m.bits >>> 8) &&& 1 == 1

def use_com2_time (m : MEMDELAY) : Bool := (m.bits >>> 10) &&& 1 == 1

def use_com3_time (m : MEMDELAY) : Bool := (m.bits >>> 11) &&& 1 == 1

def data_bus_16bit (m : MEMDELAY) : Bool := (m.bits >>> 12) &&& 1 == 1

end MEMDELAY

namespace COMDELAY

def com0 (c : COMDELAY) : Nat := c.bits &&& 15

def com2 (c : COMDELAY) : Nat := (c.bits >>> 8) &&& 15

def com3 (c : COMDELAY) : Nat := (c.bits >>> 12) &&& 15

end COMDELAY

/-! ## Timing model (lines 176-210) -/

/-- Source `Bus::CalculateMemoryTiming`. -/
def CalculateMemoryTiming (mem_delay : MEMDELAY) (common_delay : COMDELAY) :
    TickCount × TickCount × TickCount :=
  let first : Int := 0
  let seq : Int := 0
  let min : Int := 0
  let first := if mem_delay.use_com0_time then addS32 first (subS32 (common_delay.com0 : Int) 1) else first
  let seq := if mem_delay.use_com0_time then addS32 seq (subS32 (common_delay.com0 : Int) 1) else seq
  let first := if mem_delay.use_com2_time then addS32 first (common_delay.com2 : Int) else first
  let seq := if mem_delay.use_com2_time then addS32 seq (common_delay.com2 : Int) else seq
  let min := if mem_delay.use_com3_time then (common_delay.com3 : Int) else min
  let first := if first < 6 then addS32 first 1 else first
  let first := addS32 (addS32 first (mem_delay.access_time : Int)) 2
  let seq := addS32 (addS32 seq (mem_delay.access_time : Int)) 2
  let first := if first < addS32 min 6 then addS32 min 6 else first
  let seq := if seq < addS32 min 2 then addS32 min 2 else seq
  let byte_access_time : TickCount := first
  let halfword_access_time : TickCount :=
    if mem_delay.data_bus_16bit then first else addS32 first seq
  let word_access_time : TickCount :=
    if mem_delay.data_bus_16bit then addS32 first seq
    else addS32 (addS32 (addS32 first seq) seq) seq
  (max (subS32 byte_access_time 1) 0, max (subS32 halfword_access_time 1) 0,
    max (subS32 word_access_time 1) 0)

/-- The timing formula in the words of the specification (section 4.1), over
the unbounded integers: the specification's side of the comparison with
`CalculateMemoryTiming`. -/
def specMemoryTiming (m : MEMDELAY) (c : COMDELAY) : Int × Int × Int :=
  let gain : Int :=
    (if m.use_com0_time then (c.com0 : Int) - 1 else 0) + (if m.use_com2_time then (c.com2 : Int) else 0)
  let min : Int := if m.use_com3_time then (c.com3 : Int) else 0
  let first : Int := (if gain < 6 then gain + 1 else gain) + ((m.access_time : Int) + 2)
  let seq : Int := gain + ((m.access_time : Int) + 2)
  let first : Int := if first < min + 6 then min + 6 else first
  let seq : Int := if seq < min + 2 then min + 2 else seq
  let byte : Int := first
  let half : Int := if m.data_bus_16bit then first else first + seq
  let word : Int := if m.data_bus_16bit then first + seq else first + 3 * seq
  (max (byte - 1) 0, max (half - 1) 0, max (word - 1) 0)

/-- The access times `(byte, half, word)` of step 9 of the specification's
formula (section 4.1), before one is subtracted and the result is clamped at
zero, over the unbounded integers. -/
def specAccessTimes (m : MEMDELAY) (c : COMDELAY) : Int × Int × Int :=
  let gain : Int :=
    (if m.use_com0_time then (c.com0 : Int) - 1 else 0) + (if m.use_com2_time then (c.com2 : Int) else 0)
  let min : Int := if m.use_com3_time then (c.com3 : Int) else 0
  let first : Int := (if gain < 6 then gain + 1 else gain) + ((m.access_time : Int) + 2)
  let seq : Int := gain + ((m.access_time : Int) + 2)
  let first : Int := if first < min + 6 then min + 6 else first
  let seq : Int := if seq < min + 2 then min + 2 else seq
  (first, if m.data_bus_16bit then first else first + seq,
    if m.data_bus_16bit then first + seq else first + 3 * seq)

/-! ## Bus state -/

/-- Declarations of `bus.h` that `bus.cpp` uses but that are neither among the
sources nor given a value by the specification; the operations that use them
take them as a parameter: the two register write masks, the sizes of the two
expansion regions, and the DMA tick formula `GetDMARAMTickCount`. -/
structure BusConstants where
  MEMDELAY_WRITE_MASK : Nat
  COMDELAY_WRITE_MASK : Nat
  EXP1_SIZE : Nat
  EXP2_SIZE : Nat
  GetDMARAMTickCount : Nat → TickCount

/-- One choice of the constants, used for concrete evaluations. -/
def BusConstants.sample : BusConstants :=
  { MEMDELAY_WRITE_MASK := 0xAF1FFFFF
    COMDELAY_WRITE_MASK := 0x0003FFFF
    EXP1_SIZE := 0x800000
    EXP2_SIZE := 0x2000
    GetDMARAMTickCount := fun word_count => (word_count : Int) + (((word_count + 15) / 16 : Nat) : Int) }

/-- The `MEMCTRL` register block (`m_MEMCTRL`): nine 32-bit registers, in the
order the specification lists them (section 3), which the source also reaches
as the array `regs[9]` through `MEMCTRL.get` and `MEMCTRL.set`. -/
structure MEMCTRL where
  exp1_base : Nat
  exp2_base : Nat
  exp1_delay_size : MEMDELAY
  exp3_delay_size : MEMDELAY
  bios_delay_size : MEMDELAY
  spu_delay_size : MEMDELAY
  cdrom_delay_size : MEMDELAY
  exp2_delay_size : MEMDELAY
  common_delay : COMDELAY
  deriving DecidableEq, Repr

/-- The read `m_MEMCTRL.regs[index]`; an index past the block reads 0. -/
def MEMCTRL.get (r : MEMCTRL) (index : Nat) : Nat :=
  match index with
  | 0 => r.exp1_base
  | 1 => r.exp2_base
  | 2 => r.exp1_delay_size.bits
  | 3 => r.exp3_delay_size.bits
  | 4 => r.bios_delay_size.bits
  | 5 => r.spu_delay_size.bits
  | 6 => r.cdrom_delay_size.bits
  | 7 => r.exp2_delay_size.bits
  | 8 => r.common_delay.bits
  | _ => 0

/-- The assignment `m_MEMCTRL.regs[index] = value`; an index past the block
stores nothing. -/
def MEMCTRL.set (r : MEMCTRL) (index value : Nat) : MEMCTRL :=
  match index with
  | 0 => { r with exp1_base := value }
  | 1 => { r with exp2_base := value }
  | 2 => { r with exp1_delay_size := ⟨value⟩ }
  | 3 => { r with exp3_delay_size := ⟨value⟩ }
  | 4 => { r with bios_delay_size := ⟨value⟩ }
  | 5 => { r with spu_delay_size := ⟨value⟩ }
  | 6 => { r with cdrom_delay_size := ⟨value⟩ }
  | 7 => { r with exp2_delay_size := ⟨value⟩ }
  | 8 => { r with common_delay := ⟨value⟩ }
  | _ => r

/-- An access-time array `TickCount[3]`, indexed by the access size. -/
abbrev AccessTime := TickCount × TickCount × TickCount

/-- The data members of `class Bus`. Byte arrays are functions from the byte
index to the byte. -/
structure Bus where
  m_exp1_access_time : AccessTime
  m_exp2_access_time : AccessTime
  m_bios_access_time : AccessTime
  m_cdrom_access_time : AccessTime
  m_spu_access_time : AccessTime
  m_ram : Nat → Nat
  m_bios : Nat → Nat
  m_exp1_rom : List Nat
  m_MEMCTRL : MEMCTRL
  m_ram_size_reg : Nat
  m_tty_line_buffer : List Nat

namespace Bus

/-- Source `Bus::RecalculateMemoryTimings` (the trace output is not modelled). -/
def RecalculateMemoryTimings (b : Bus) : Bus :=
  { b with
    m_bios_access_time := CalculateMemoryTiming b.m_MEMCTRL.bios_delay_size b.m_MEMCTRL.common_delay
    m_cdrom_access_time := CalculateMemoryTiming b.m_MEMCTRL.cdrom_delay_size b.m_MEMCTRL.common_delay
    m_spu_access_time := CalculateMemoryTiming b.m_MEMCTRL.spu_delay_size b.m_MEMCTRL.common_delay }

/-- Source `Bus::Reset`. -/
def Reset (b : Bus) : Bus :=
  let b := { b with m_ram := fun _ => 0 }
  let b := { b with m_MEMCTRL := { b.m_MEMCTRL with exp1_base := 0x1F000000 } }
  let b := { b with m_MEMCTRL := { b.m_MEMCTRL with exp2_base := 0x1F802000 } }
  let b := { b with m_MEMCTRL := { b.m_MEMCTRL with exp1_delay_size := ⟨0x0013243F⟩ } }
  let b := { b with m_MEMCTRL := { b.m_MEMCTRL with exp3_delay_size := ⟨0x00003022⟩ } }
  let b := { b with m_MEMCTRL := { b.m_MEMCTRL with bios_delay_size := ⟨0x0013243F⟩ } }
  let b := { b with m_MEMCTRL := { b.m_MEMCTRL with spu_delay_size := ⟨0x200931E1⟩ } }
  let b := { b with m_MEMCTRL := { b.m_MEMCTRL with cdrom_delay_size := ⟨0x00020843⟩ } }
  let b := { b with m_MEMCTRL := { b.m_MEMCTRL with exp2_delay_size := ⟨0x00070777⟩ } }
  let b := { b with m_MEMCTRL := { b.m_MEMCTRL with common_delay := ⟨0x00031125⟩ } }
  let b := { b with m_ram_size_reg := 0x00000B88 }
  RecalculateMemoryTimings b

/-- Source `Bus::DoReadMemoryControl`. -/
def DoReadMemoryControl (_size : MemoryAccessSize) (offset : Nat) (b : Bus) : Nat :=
  let value := b.m_MEMCTRL.get (offset / 4)
  let (_, value) := FixupUnalignedWordAccessW32 offset value
  value

/-- Source `Bus::DoWriteMemoryControl`. -/
def DoWriteMemoryControl (K : BusConstants) (_size : MemoryAccessSize) (offset value : Nat)
    (b : Bus) : Bus :=
  let (offset, value) := FixupUnalignedWordAccessW32 offset value
  let index := offset / 4
  let write_mask := if index = 8 then K.COMDELAY_WRITE_MASK else K.MEMDELAY_WRITE_MASK
  let new_value := (b.m_MEMCTRL.get index &&& notU32 write_mask) ||| (value &&& write_mask)
  if b.m_MEMCTRL.get index ≠ new_value then
    RecalculateMemoryTimings { b with m_MEMCTRL := b.m_MEMCTRL.set index new_value }
  else
    b

/-- The timing invariant: the three stored access-time triples are the ones
`CalculateMemoryTiming` gives for the current registers. -/
def TimingInvariant (b : Bus) : Prop :=
  b.m_bios_access_time = CalculateMemoryTiming b.m_MEMCTRL.bios_delay_size b.m_MEMCTRL.common_delay ∧
  b.m_cdrom_access_time = CalculateMemoryTiming b.m_MEMCTRL.cdrom_delay_size b.m_MEMCTRL.common_delay ∧
  b.m_spu_access_time = CalculateMemoryTiming b.m_MEMCTRL.spu_delay_size b.m_MEMCTRL.common_delay

/-- A bus with every member zero or empty, used for concrete evaluations. -/
def zero : Bus :=
  { m_exp1_access_time := (0, 0, 0)
    m_exp2_access_time := (0, 0, 0)
    m_bios_access_time := (0, 0, 0)
    m_cdrom_access_time := (0, 0, 0)
    m_spu_access_time := (0, 0, 0)
    m_ram := fun _ => 0
    m_bios := fun _ => 0
    m_exp1_rom := []
    m_MEMCTRL := ⟨0, 0, ⟨0⟩, ⟨0⟩, ⟨0⟩, ⟨0⟩, ⟨0⟩, ⟨0⟩, ⟨0⟩⟩
    m_ram_size_reg := 0
    m_tty_line_buffer := [] }

end Bus

/-! ## Peripherals and the bus-side world -/

/-- Modelled from the spec: a peripheral device. The devices are not among the
sources; the specification (section 6) gives only their bus-facing contract,
`ReadRegister(offset) → value` and `WriteRegister(offset, value)`. A device is
its register file `regs` (the value `ReadRegister` returns per offset, of the
device's register width) together with the calls the bus has made to it,
oldest first. -/
structure Device where
  regs : Nat → Nat
  reads : List Nat
  writes : List (Nat × Nat)

/-- Modelled from the spec: `ReadRegister(offset)` returns the register and is
recorded. -/
def Device.ReadRegister (d : Device) (offset : Nat) : Nat × Device :=
  (d.regs offset, { d with reads := d.reads ++ [offset] })

/-- Modelled from the spec: `WriteRegister(offset, value)` is recorded. -/
def Device.WriteRegister (d : Device) (offset value : Nat) : Device :=
  { d with writes := d.writes ++ [(offset, value)] }

/-- A device with every register zero and no call made. -/
def Device.zero : Device := { regs := fun _ => 0, reads := [], writes := [] }

/-- Everything on the bus side of the machine: the bus members, the global
peripherals, the TTY lines handed to the logger and the calls made to
`InvalidateCodePages`, oldest first. -/
structure System where
  bus : Bus
  g_pad : Device
  g_sio : Device
  g_cdrom : Device
  g_gpu : Device
  g_mdec : Device
  g_interrupt_controller : Device
  g_timers : Device
  g_spu : Device
  g_dma : Device
  tty_log : List (List Nat)
  invalidated_code_pages : List (Nat × Nat)

/-- A bus-side world with a zero bus and zero devices. -/
def System.zero : System :=
  { bus := Bus.zero
    g_pad := Device.zero
    g_sio := Device.zero
    g_cdrom := Device.zero
    g_gpu := Device.zero
    g_mdec := Device.zero
    g_interrupt_controller := Device.zero
    g_timers := Device.zero
    g_spu := Device.zero
    g_dma := Device.zero
    tty_log := []
    invalidated_code_pages := [] }

/-- Source `ZeroExtend32` applied to a value that is already a `u32`. -/
def ZeroExtend32 (x : Nat) : Nat := x

namespace Bus

/-- Source `Bus::DoInvalidAccess`: the cost is 1; a read sets the value to
`0xFFFFFFFF` (the error message is not modelled). -/
def DoInvalidAccess (type : MemoryAccessType) (_size : MemoryAccessSize) (_address value : Nat) :
    TickCount × Nat :=
  let value := if type = MemoryAccessType.Read then 0xFFFFFFFF else value
  (1, value)

/-- Source `Bus::DoReadPad`. -/
def DoReadPad (_size : MemoryAccessSize) (offset : Nat) (s : System) : Nat × System :=
  let (value, d) := s.g_pad.ReadRegister offset
  (value, { s with g_pad := d })

/-- Source `Bus::DoWritePad`. -/
def DoWritePad (_size : MemoryAccessSize) (offset value : Nat) (s : System) : System :=
  { s with g_pad := s.g_pad.WriteRegister offset value }

/-- Source `Bus::DoReadSIO`. -/
def DoReadSIO (_size : MemoryAccessSize) (offset : Nat) (s : System) : Nat × System :=
  let (value, d) := s.g_sio.ReadRegister offset
  (value, { s with g_sio := d })

/-- Source `Bus::DoWriteSIO`. -/
def DoWriteSIO (_size : MemoryAccessSize) (offset value : Nat) (s : System) : System :=
  { s with g_sio := s.g_sio.WriteRegister offset value }

/-- Source `Bus::DoReadGPU`: the register is read at the offset as given, then the
fix-up is applied to offset and value. -/
def DoReadGPU (_size : MemoryAccessSize) (offset : Nat) (s : System) : Nat × System :=
  let (value, d) := s.g_gpu.ReadRegister offset
  let (_, value) := FixupUnalignedWordAccessW32 offset value
  (value, { s with g_gpu := d })

/-- Source `Bus::DoWriteGPU`. -/
def DoWriteGPU (_size : MemoryAccessSize) (offset value : Nat) (s : System) : System :=
  let (offset, value) := FixupUnalignedWordAccessW32 offset value
  { s with g_gpu := s.g_gpu.WriteRegister offset value }

/-- Source `Bus::DoReadMDEC`. -/
def DoReadMDEC (_size : MemoryAccessSize) (offset : Nat) (s : System) : Nat × System :=
  let (value, d) := s.g_mdec.ReadRegister offset
  let (_, value) := FixupUnalignedWordAccessW32 offset value
  (value, { s with g_mdec := d })

/-- Source `Bus::DoWriteMDEC`. -/
def DoWriteMDEC (_size : MemoryAccessSize) (offset value : Nat) (s : System) : System :=
  let (offset, value) := FixupUnalignedWordAccessW32 offset value
  { s with g_mdec := s.g_mdec.WriteRegister offset value }

/-- Source `Bus::DoReadInterruptController`. -/
def DoReadInterruptController (_size : MemoryAccessSize) (offset : Nat) (s : System) :
    Nat × System :=
  let (value, d) := s.g_interrupt_controller.ReadRegister offset
  let (_, value) := FixupUnalignedWordAccessW32 offset value
  (value, { s with g_interrupt_controller := d })

/-- Source `Bus::DoWriteInterruptController`. -/
def DoWriteInterruptController (_size : MemoryAccessSize) (offset value : Nat) (s : System) :
    System :=
  let (offset, value) := FixupUnalignedWordAccessW32 offset value
  { s with g_interrupt_controller := s.g_interrupt_controller.WriteRegister offset value }

/-- Source `Bus::DoReadTimers`. -/
def DoReadTimers (_size : MemoryAccessSize) (offset : Nat) (s : System) : Nat × System :=
  let (value, d) := s.g_timers.ReadRegister offset
  let (_, value) := FixupUnalignedWordAccessW32 offset value
  (value, { s with g_timers := d })

/-- Source `Bus::DoWriteTimers`. -/
def DoWriteTimers (_size : MemoryAccessSize) (offset value : Nat) (s : System) : System :=
  let (offset, value) := FixupUnalignedWordAccessW32 offset value
  { s with g_timers := s.g_timers.WriteRegister offset value }

/-- Source `Bus::DoReadSPU`: the SPU registers are 16 bits wide. -/
def DoReadSPU (size : MemoryAccessSize) (offset : Nat) (s : System) : Nat × System :=
  match size with
  | .Word =>
    let (lsb, d) := s.g_spu.ReadRegister offset
    let (msb, d) := d.ReadRegister (addU32 offset 2)
    (ZeroExtend32 (Truncate16 lsb) ||| shlU32 (ZeroExtend32 (Truncate16 msb)) 16, { s with g_spu := d })
  | .HalfWord =>
    let (value, d) := s.g_spu.ReadRegister offset
    (ZeroExtend32 (Truncate16 value), { s with g_spu := d })
  | .Byte =>
    let (value, d) := s.g_spu.ReadRegister (FIXUP_HALFWORD_READ_OFFSET offset)
    (FIXUP_HALFWORD_READ_VALUE offset (Truncate16 value), { s with g_spu := d })

/-- Source `Bus::DoWriteSPU` (the debug-only alignment assertions are not modelled).
The byte case applies `FIXUP_HALFWORD_READ_VALUE` to the value, as the source
does. -/
def DoWriteSPU (size : MemoryAccessSize) (offset value : Nat) (s : System) : System :=
  match size with
  | .Word =>
    let d := s.g_spu.WriteRegister offset (Truncate16 value)
    let d := d.WriteRegister (addU32 offset 2) (Truncate16 (value >>> 16))
    { s with g_spu := d }
  | .HalfWord =>
    { s with g_spu := s.g_spu.WriteRegister offset (Truncate16 value) }
  | .Byte =>
    let d := s.g_spu.WriteRegister (FIXUP_HALFWORD_READ_OFFSET offset)
      (Truncate16 (FIXUP_HALFWORD_READ_VALUE offset value))
    { s with g_spu := d }

/-- Source `Bus::DoReadDMA`. -/
def DoReadDMA (_size : MemoryAccessSize) (offset : Nat) (s : System) : Nat × System :=
  let (value, d) := s.g_dma.ReadRegister (FIXUP_WORD_READ_OFFSET offset)
  (FIXUP_WORD_READ_VALUE offset value, { s with g_dma := d })

/-- Source `Bus::DoWriteDMA`. The narrow case tests `(offset & 0xF0) < 7`, as the
source does; the word case falls through to the `WriteRegister` call. -/
def DoWriteDMA (size : MemoryAccessSize) (offset value : Nat) (s : System) : System :=
  let (offset, value) :=
    match size with
    | .Byte | .HalfWord =>
      if (offset &&& 0xF0) < 7 ∧ (offset &&& 0x0F) = 0x4 then (offset, ZeroExtend32 value)
      else FixupUnalignedWordAccessW32 offset value
    | .Word => (offset, value)
  { s with g_dma := s.g_dma.WriteRegister offset value }

end Bus

/-! ## Byte arrays -/

/-- Little-endian read of `n` bytes of a byte array, starting at `offset`
(`memcpy` into an integer on the little-endian host). -/
def readLE (mem : Nat → Nat) (offset : Nat) : Nat → Nat
  | 0 => 0
  | n + 1 => mem offset % 256 + 256 * readLE mem (offset + 1) n

/-- Little-endian store of the low `n` bytes of `value` into a byte array,
starting at `offset`. -/
def writeLE (mem : Nat → Nat) (offset value : Nat) : Nat → Nat → Nat
  | 0 => mem
  | n + 1 => writeLE (Function.update mem offset (value % 256)) (offset + 1) (value / 256) n

/-- The number of bytes of an access, `1 << size`. -/
def MemoryAccessSize.bytes : MemoryAccessSize → Nat
  | .Byte => 1
  | .HalfWord => 2
  | .Word => 4

/-- The element of an access-time array selected by `static_cast<u32>(size)`. -/
def AccessTime.get (t : AccessTime) : MemoryAccessSize → TickCount
  | .Byte => t.1
  | .HalfWord => t.2.1
  | .Word => t.2.2

/-! ## Remaining region handlers of the bus -/

namespace Bus

/-- Modelled from the spec: `MEMCTRL2_BASE` of `bus.h` (not among the sources),
the base of the RAM-size register in the region table of section 4.2. -/
def MEMCTRL2_BASE : Nat := 0x1F801060

/-- Source `Bus::DoReadEXP1`. -/
def DoReadEXP1 (size : MemoryAccessSize) (offset : Nat) (b : Bus) : Nat :=
  if b.m_exp1_rom.isEmpty then
    0xFFFFFFFF
  else if offset = 0x20018 then
    1
  else
    let transfer_size := size.bytes
    if addU32 offset transfer_size > b.m_exp1_rom.length then
      0
    else
      match size with
      | .Byte => ZeroExtend32 (b.m_exp1_rom.getD offset 0 % 256)
      | .HalfWord => ZeroExtend32 (readLE (fun i => b.m_exp1_rom.getD i 0) offset 2)
      | .Word => readLE (fun i => b.m_exp1_rom.getD i 0) offset 4

/-- Source `Bus::DoWriteEXP1`: only a warning is printed. -/
def DoWriteEXP1 (_size : MemoryAccessSize) (_offset _value : Nat) (s : System) : System := s

/-- Source `Bus::DoReadEXP2`. -/
def DoReadEXP2 (_size : MemoryAccessSize) (offset : Nat) : Nat :=
  if offset = 0x21 then 0x04 ||| 0x08 else 0xFFFFFFFF

/-- The characters a `%s` conversion prints from `std::string::c_str()`: the
characters of the string before its first zero byte. -/
def c_str (text : List Nat) : List Nat := text.takeWhile (fun ch => ch ≠ 0)

/-- Source `Bus::DoWriteEXP2`: the TTY at offset `0x23`. On a line feed a buffer
that is not `empty()` is handed to the logger as `"TTY: %s"` of its `c_str()`,
so the logged text is the buffer up to its first zero byte; the buffer is then
cleared. The other offsets only print a warning. -/
def DoWriteEXP2 (_size : MemoryAccessSize) (offset value : Nat) (s : System) : System :=
  if offset = 0x23 then
    if value = 13 then
      s
    else if value = 10 then
      let s := if s.bus.m_tty_line_buffer ≠ [] then
          { s with tty_log := s.tty_log ++ [c_str s.bus.m_tty_line_buffer] }
        else s
      { s with bus := { s.bus with m_tty_line_buffer := [] } }
    else
      { s with bus := { s.bus with m_tty_line_buffer := s.bus.m_tty_line_buffer ++ [Truncate8 value] } }
  else
    s

/-- Source `Bus::DoReadMemoryControl2`. -/
def DoReadMemoryControl2 (size : MemoryAccessSize) (offset : Nat) (b : Bus) : Nat :=
  if offset = 0x00 then
    b.m_ram_size_reg
  else
    (DoInvalidAccess .Read size (MEMCTRL2_BASE ||| offset) 0).2

/-- Source `Bus::DoWriteMemoryControl2`. -/
def DoWriteMemoryControl2 (_size : MemoryAccessSize) (offset value : Nat) (b : Bus) : Bus :=
  if offset = 0x00 then
    { b with m_ram_size_reg := value }
  else
    b

/-- Source `Bus::DoReadCDROM`: the CDROM registers are 8 bits wide. -/
def DoReadCDROM (size : MemoryAccessSize) (offset : Nat) (s : System) : Nat × System :=
  match size with
  | .Word =>
    let (b0, d) := s.g_cdrom.ReadRegister offset
    let (b1, d) := d.ReadRegister (addU32 offset 1)
    let (b2, d) := d.ReadRegister (addU32 offset 2)
    let (b3, d) := d.ReadRegister (addU32 offset 3)
    (Truncate8 b0 ||| shlU32 (Truncate8 b1) 8 ||| shlU32 (Truncate8 b2) 16 ||| shlU32 (Truncate8 b3) 24,
      { s with g_cdrom := d })
  | .HalfWord =>
    let (lsb, d) := s.g_cdrom.ReadRegister offset
    let (msb, d) := d.ReadRegister (addU32 offset 1)
    (Truncate8 lsb ||| shlU32 (Truncate8 msb) 8, { s with g_cdrom := d })
  | .Byte =>
    let (value, d) := s.g_cdrom.ReadRegister offset
    (ZeroExtend32 (Truncate8 value), { s with g_cdrom := d })

/-- Source `Bus::DoWriteCDROM`. -/
def DoWriteCDROM (size : MemoryAccessSize) (offset value : Nat) (s : System) : System :=
  match size with
  | .Word =>
    let d := s.g_cdrom.WriteRegister offset (Truncate8 (value &&& 0xFF))
    let d := d.WriteRegister (addU32 offset 1) (Truncate8 ((value >>> 8) &&& 0xFF))
    let d := d.WriteRegister (addU32 offset 2) (Truncate8 ((value >>> 16) &&& 0xFF))
    let d := d.WriteRegister (addU32 offset 3) (Truncate8 ((value >>> 24) &&& 0xFF))
    { s with g_cdrom := d }
  | .HalfWord =>
    let d := s.g_cdrom.WriteRegister offset (Truncate8 (value &&& 0xFF))
    let d := d.WriteRegister (addU32 offset 1) (Truncate8 ((value >>> 8) &&& 0xFF))
    { s with g_cdrom := d }
  | .Byte =>
    { s with g_cdrom := s.g_cdrom.WriteRegister offset (Truncate8 value) }

/-- Modelled from the spec: `DoRAMAccess` of `bus.h`, which is not among the
sources. RAM is a 2 MiB byte array mirrored mod 2 MiB (section 3); an access
costs 0 ticks for the CPU; a write must call
`InvalidateCodePages(physical_address, word_count)` (section 4.2), here with
the masked address and one word. -/
def DoRAMAccess (type : MemoryAccessType) (size : MemoryAccessSize) (offset value : Nat)
    (s : System) : TickCount × Nat × System :=
  let offset := offset &&& 0x1FFFFF
  match type with
  | .Read => (0, readLE s.bus.m_ram offset size.bytes, s)
  | .Write =>
    (0, value,
      { s with
        bus := { s.bus with m_ram := writeLE s.bus.m_ram offset value size.bytes }
        invalidated_code_pages := s.invalidated_code_pages ++ [(offset, 1)] })

/-- Modelled from the spec: `DoBIOSAccess` of `bus.h`, which is not among the
sources. The BIOS image is read-only: a read returns the raw bytes at the
cost `bios_access_time[size]`, a write is ignored (sections 3 and 4.2). -/
def DoBIOSAccess (type : MemoryAccessType) (size : MemoryAccessSize) (offset value : Nat)
    (s : System) : TickCount × Nat × System :=
  match type with
  | .Read => (s.bus.m_bios_access_time.get size, readLE s.bus.m_bios offset size.bytes, s)
  | .Write => (0, value, s)

/-- Modelled from the spec: `Bus::DispatchAccess` of `bus.h`, which is not
among the sources. The region is selected by the physical address as in the
table of section 4.2, in the table's order; the offset handed to a region is
the address minus the region's base; a read costs the table's tick count and
a write costs 0 (section 5); the scratchpad window and every address outside
the table go to `DoInvalidAccess`. -/
def DispatchAccess (K : BusConstants) (type : MemoryAccessType) (size : MemoryAccessSize)
    (address value : Nat) (s : System) : TickCount × Nat × System :=
  if address < 0x800000 then
    DoRAMAccess type size address value s
  else if 0x1F000000 ≤ address ∧ address < 0x1F000000 + K.EXP1_SIZE then
    match type with
    | .Read => (s.bus.m_exp1_access_time.get size, DoReadEXP1 size (address - 0x1F000000) s.bus, s)
    | .Write => (0, value, DoWriteEXP1 size (address - 0x1F000000) value s)
  else if 0x1F801000 ≤ address ∧ address ≤ 0x1F801023 then
    match type with
    | .Read => (2, s.bus.DoReadMemoryControl size (address - 0x1F801000), s)
    | .Write => (0, value, { s with bus := s.bus.DoWriteMemoryControl K size (address - 0x1F801000) value })
  else if 0x1F801040 ≤ address ∧ address ≤ 0x1F80104F then
    match type with
    | .Read => let (v, s) := DoReadPad size (address - 0x1F801040) s; (2, v, s)
    | .Write => (0, value, DoWritePad size (address - 0x1F801040) value s)
  else if 0x1F801050 ≤ address ∧ address ≤ 0x1F80105F then
    match type with
    | .Read => let (v, s) := DoReadSIO size (address - 0x1F801050) s; (2, v, s)
    | .Write => (0, value, DoWriteSIO size (address - 0x1F801050) value s)
  else if 0x1F801060 ≤ address ∧ address ≤ 0x1F801063 then
    match type with
    | .Read => (2, s.bus.DoReadMemoryControl2 size (address - 0x1F801060), s)
    | .Write => (0, value, { s with bus := s.bus.DoWriteMemoryControl2 size (address - 0x1F801060) value })
  else if 0x1F801070 ≤ address ∧ address ≤ 0x1F801077 then
    match type with
    | .Read => let (v, s) := DoReadInterruptController size (address - 0x1F801070) s; (2, v, s)
    | .Write => (0, value, DoWriteInterruptController size (address - 0x1F801070) value s)
  else if 0x1F801080 ≤ address ∧ address ≤ 0x1F8010FF then
    match type with
    | .Read => let (v, s) := DoReadDMA size (address - 0x1F801080) s; (2, v, s)
    | .Write => (0, value, DoWriteDMA size (address - 0x1F801080) value s)
  else if 0x1F801100 ≤ address ∧ address ≤ 0x1F80112F then
    match type with
    | .Read => let (v, s) := DoReadTimers size (address - 0x1F801100) s; (2, v, s)
    | .Write => (0, value, DoWriteTimers size (address - 0x1F801100) value s)
  else if 0x1F801800 ≤ address ∧ address ≤ 0x1F801803 then
    match type with
    | .Read =>
      let (v, s') := DoReadCDROM size (address - 0x1F801800) s
      (s.bus.m_cdrom_access_time.get size, v, s')
    | .Write => (0, value, DoWriteCDROM size (address - 0x1F801800) value s)
  else if 0x1F801810 ≤ address ∧ address ≤ 0x1F801817 then
    match type with
    | .Read => let (v, s) := DoReadGPU size (address - 0x1F801810) s; (2, v, s)
    | .Write => (0, value, DoWriteGPU size (address - 0x1F801810) value s)
  else if 0x1F801820 ≤ address ∧ address ≤ 0x1F801827 then
    match type with
    | .Read => let (v, s) := DoReadMDEC size (address - 0x1F801820) s; (2, v, s)
    | .Write => (0, value, DoWriteMDEC size (address - 0x1F801820) value s)
  else if 0x1F801C00 ≤ address ∧ address ≤ 0x1F801FFF then
    match type with
    | .Read =>
      let (v, s') := DoReadSPU size (address - 0x1F801C00) s
      (s.bus.m_spu_access_time.get size, v, s')
    | .Write => (0, value, DoWriteSPU size (address - 0x1F801C00) value s)
  else if 0x1F802000 ≤ address ∧ address < 0x1F802000 + K.EXP2_SIZE then
    match type with
    | .Read => (s.bus.m_exp2_access_time.get size, DoReadEXP2 size (address - 0x1F802000), s)
    | .Write => (0, value, DoWriteEXP2 size (address - 0x1F802000) value s)
  else if 0x1FC00000 ≤ address ∧ address ≤ 0x1FC7FFFF then
    DoBIOSAccess type size (address - 0x1FC00000) value s
  else
    let (ticks, value) := DoInvalidAccess type size address value
    (ticks, value, s)

end Bus

/-! ## CPU state and the segment mapper (lines 587-885) -/

namespace CPU

/-- Modelled from the spec: the exception codes the mapper raises (glossary);
the enumeration itself is declared in `cpu_types.h`, not among the sources. -/
inductive Exception where
  | AdEL
  | AdES
  | IBE
  | DBE
  deriving DecidableEq, Repr

/-- One call of `RaiseException`: the code and, for the five-argument
overload, the arguments `EPC`, `BD`, `BT`, `CE`. -/
structure RaisedException where
  excode : Exception
  args : Option (Nat × Bool × Bool × Nat)
  deriving DecidableEq, Repr

/-- Modelled from the spec: the part of `CPU::g_state` (declared in
`cpu_core.h`, not among the sources) that `bus.cpp` touches, with the calls
made to `RaiseException`, oldest first. `Isc` is `cop0_regs.sr.Isc`,
`BadVaddr` is `cop0_regs.BadVaddr`, `dcache` is the 1 KiB scratchpad. -/
structure State where
  pc : Nat
  npc : Nat
  next_instruction : Nat
  current_instruction_pc : Nat
  Isc : Bool
  BadVaddr : Nat
  cache_control : Nat
  dcache : Nat → Nat
  pending_ticks : TickCount
  raised : List RaisedException

/-- A CPU state with every member zero, `Isc` clear and no exception raised. -/
def State.zero : State :=
  { pc := 0, npc := 0, next_instruction := 0, current_instruction_pc := 0, Isc := false
    BadVaddr := 0, cache_control := 0, dcache := fun _ => 0, pending_ticks := 0, raised := [] }

end CPU

/-- The whole machine: `CPU::g_state` and the bus-side world. -/
structure Machine where
  g_state : CPU.State
  sys : System

/-- The machine right after power-on: everything zero, then `Bus::Reset`. -/
def Machine.afterReset : Machine :=
  { g_state := CPU.State.zero, sys := { System.zero with bus := Bus.Reset Bus.zero } }

namespace CPU

/-- Modelled from the spec: `DCACHE_LOCATION`, `DCACHE_LOCATION_MASK` and
`DCACHE_OFFSET_MASK` of `cpu_types.h` (not among the sources): the scratchpad
is the 1 KiB window `0x1F800000..0x1F8003FF`. -/
def DCACHE_LOCATION : Nat := 0x1F800000

def DCACHE_LOCATION_MASK : Nat := 0xFFFFFC00

def DCACHE_OFFSET_MASK : Nat := 0x000003FF

/-- Modelled from the spec: `Common::IsAlignedPow2(value, alignment)` of
`common/align.h` (not among the sources): the value is a multiple of the
power of two `alignment`. -/
def IsAlignedPow2 (value alignment : Nat) : Bool := value &&& (alignment - 1) == 0

/-- Modelled from the spec: `CPU::RaiseException(excode)`, defined in
`cpu_core.cpp` (not among the sources). The exception module is an external
collaborator of the specification; raising is recorded in order. -/
def RaiseException (excode : Exception) (m : Machine) : Machine :=
  { m with g_state := { m.g_state with raised := m.g_state.raised ++ [⟨excode, none⟩] } }

/-- Modelled from the spec: the overload
`CPU::RaiseException(excode, EPC, BD, BT, CE)` of `cpu_core.cpp`. -/
def RaiseExceptionAt (excode : Exception) (EPC : Nat) (BD BT : Bool) (CE : Nat) (m : Machine) :
    Machine :=
  { m with g_state := { m.g_state with raised := m.g_state.raised ++ [⟨excode, some (EPC, BD, BT, CE)⟩] } }

/-- Source `CPU::WriteCacheControl`. -/
def WriteCacheControl (value : Nat) (m : Machine) : Machine :=
  { m with g_state := { m.g_state with cache_control := value } }

/-- Source `CPU::DoScratchpadAccess<type, size>`. -/
def DoScratchpadAccess (type : MemoryAccessType) (size : MemoryAccessSize) (address value : Nat)
    (m : Machine) : Nat × Machine :=
  let cache_offset := address &&& DCACHE_OFFSET_MASK
  match size, type with
  | .Byte, .Read => (ZeroExtend32 (m.g_state.dcache cache_offset % 256), m)
  | .Byte, .Write =>
    (value, { m with g_state := { m.g_state with
        dcache := Function.update m.g_state.dcache cache_offset (Truncate8 value) } })
  | .HalfWord, .Read => (ZeroExtend32 (readLE m.g_state.dcache cache_offset 2), m)
  | .HalfWord, .Write =>
    (value, { m with g_state := { m.g_state with
        dcache := writeLE m.g_state.dcache cache_offset (Truncate16 value) 2 } })
  | .Word, .Read => (readLE m.g_state.dcache cache_offset 4, m)
  | .Word, .Write =>
    (value, { m with g_state := { m.g_state with
        dcache := writeLE m.g_state.dcache cache_offset value 4 } })

/-- The call `g_bus->DispatchAccess<type, size>(phys_addr, value)` made from
the mapper: only the bus-side world changes. -/
def dispatch (K : BusConstants) (type : MemoryAccessType) (size : MemoryAccessSize)
    (phys_addr value : Nat) (m : Machine) : TickCount × Nat × Machine :=
  let (ticks, value, sys) := Bus.DispatchAccess K type size phys_addr value m.sys
  (ticks, value, { m with sys := sys })

/-- Source `CPU::DoMemoryAccess<type, size>`: the tick count (negative for a bus
error), the value and the machine after the access. -/
def DoMemoryAccess (K : BusConstants) (type : MemoryAccessType) (size : MemoryAccessSize)
    (address value : Nat) (m : Machine) : TickCount × Nat × Machine :=
  match address >>> 29 with
  | 0 =>
    if type = MemoryAccessType.Write ∧ m.g_state.Isc = true then
      (0, value, m)
    else
      let phys_addr := address &&& 0x1FFFFFFF
      if phys_addr &&& DCACHE_LOCATION_MASK = DCACHE_LOCATION then
        let (value, m) := DoScratchpadAccess type size phys_addr value m
        (0, value, m)
      else
        dispatch K type size phys_addr value m
  | 1 | 2 | 3 =>
    (-1, value, m)
  | 4 =>
    if type = MemoryAccessType.Write ∧ m.g_state.Isc = true then
      (0, value, m)
    else
      let phys_addr := address &&& 0x1FFFFFFF
      if phys_addr &&& DCACHE_LOCATION_MASK = DCACHE_LOCATION then
        let (value, m) := DoScratchpadAccess type size phys_addr value m
        (0, value, m)
      else
        dispatch K type size phys_addr value m
  | 5 =>
    let phys_addr := address &&& 0x1FFFFFFF
    dispatch K type size phys_addr value m
  | 6 | 7 =>
    if address = 0xFFFE0130 then
      match type with
      | .Read => (0, m.g_state.cache_control, m)
      | .Write => (0, value, WriteCacheControl value m)
    else
      (-1, value, m)
  | _ =>
    (0, value, m)

/-- The assignment of `isc` to `g_state.cop0_regs.sr.Isc`. -/
def setIsc (isc : Bool) (m : Machine) : Machine :=
  { m with g_state := { m.g_state with Isc := isc } }

/-- Source `CPU::DoAlignmentCheck<type, size>`: the result and the machine after the
check. -/
def DoAlignmentCheck (type : MemoryAccessType) (size : MemoryAccessSize) (address : Nat)
    (m : Machine) : Bool × Machine :=
  let fault : Bool × Machine :=
    (false, RaiseException (if type = MemoryAccessType.Read then Exception.AdEL else Exception.AdES)
      { m with g_state := { m.g_state with BadVaddr := address } })
  match size with
  | .HalfWord => if IsAlignedPow2 address 2 then (true, m) else fault
  | .Word => if IsAlignedPow2 address 4 then (true, m) else fault
  | .Byte => (true, m)

/-- The update `g_state.pending_ticks += cycles`. -/
def addPendingTicks (cycles : TickCount) (m : Machine) : Machine :=
  { m with g_state := { m.g_state with pending_ticks := addS32 m.g_state.pending_ticks cycles } }

/-- Source `CPU::ReadMemoryByte`; the argument after the address is the content of
the destination `*value` before the call, the second component of the result
its content after the call. The destination is assigned before the tick count
is tested. -/
def ReadMemoryByte (K : BusConstants) (addr _value : Nat) (m : Machine) : Bool × Nat × Machine :=
  let temp := 0
  let (cycles, temp, m) := DoMemoryAccess K .Read .Byte addr temp m
  let value := Truncate8 temp
  if cycles < 0 then
    (false, value, RaiseException .DBE m)
  else
    (true, value, addPendingTicks cycles m)

/-- Source `CPU::ReadMemoryHalfWord`. -/
def ReadMemoryHalfWord (K : BusConstants) (addr value : Nat) (m : Machine) : Bool × Nat × Machine :=
  let (ok, m') := DoAlignmentCheck .Read .HalfWord addr m
  if ¬ ok then
    (false, value, m')
  else
    let temp := 0
    let (cycles, temp, m) := DoMemoryAccess K .Read .HalfWord addr temp m'
    let value := Truncate16 temp
    if cycles < 0 then
      (false, value, RaiseException .DBE m)
    else
      (true, value, addPendingTicks cycles m)

/-- Source `CPU::ReadMemoryWord`: the destination itself is handed to the mapper. -/
def ReadMemoryWord (K : BusConstants) (addr value : Nat) (m : Machine) : Bool × Nat × Machine :=
  let (ok, m') := DoAlignmentCheck .Read .Word addr m
  if ¬ ok then
    (false, value, m')
  else
    let (cycles, value, m) := DoMemoryAccess K .Read .Word addr value m'
    if cycles < 0 then
      (false, value, RaiseException .DBE m)
    else
      (true, value, addPendingTicks cycles m)

/-- Source `CPU::WriteMemoryByte` (the debug-only assertion is not modelled). -/
def WriteMemoryByte (K : BusConstants) (addr value : Nat) (m : Machine) : Bool × Machine :=
  let temp := ZeroExtend32 value
  let (cycles, _, m) := DoMemoryAccess K .Write .Byte addr temp m
  if cycles < 0 then
    (false, RaiseException .DBE m)
  else
    (true, m)

/-- Source `CPU::WriteMemoryHalfWord`. -/
def WriteMemoryHalfWord (K : BusConstants) (addr value : Nat) (m : Machine) : Bool × Machine :=
  let (ok, m') := DoAlignmentCheck .Write .HalfWord addr m
  if ¬ ok then
    (false, m')
  else
    let temp := ZeroExtend32 value
    let (cycles, _, m) := DoMemoryAccess K .Write .HalfWord addr temp m'
    if cycles < 0 then
      (false, RaiseException .DBE m)
    else
      (true, m)

/-- Source `CPU::WriteMemoryWord`. -/
def WriteMemoryWord (K : BusConstants) (addr value : Nat) (m : Machine) : Bool × Machine :=
  let (ok, m') := DoAlignmentCheck .Write .Word addr m
  if ¬ ok then
    (false, m')
  else
    let (cycles, _, m) := DoMemoryAccess K .Write .Word addr value m'
    if cycles < 0 then
      (false, RaiseException .DBE m)
    else
      (true, m)

end CPU

/-! ## Instruction fetch and safe probes (lines 737-751, 849-885) -/

namespace CPU

/-- Source `CPU::FetchInstruction` (the debug-only alignment assertion is not
modelled). The word is read into `g_state.next_instruction.bits`; the fetch
does not add to `pending_ticks`. -/
def FetchInstruction (K : BusConstants) (m : Machine) : Bool × Machine :=
  let (cycles, bits, m) :=
    DoMemoryAccess K .Read .Word m.g_state.npc m.g_state.next_instruction m
  let m := { m with g_state := { m.g_state with next_instruction := bits } }
  if cycles < 0 then
    (false, RaiseExceptionAt .IBE m.g_state.npc false false 0 m)
  else
    let m := { m with g_state := { m.g_state with pc := m.g_state.npc } }
    let m := { m with g_state := { m.g_state with npc := addU32 m.g_state.npc 4 } }
    (true, m)

/-- Source `CPU::SafeReadMemoryByte`; the destination is passed and returned as
in `ReadMemoryByte`. -/
def SafeReadMemoryByte (K : BusConstants) (addr _value : Nat) (m : Machine) :
    Bool × Nat × Machine :=
  let temp := 0
  let (cycles, temp, m) := DoMemoryAccess K .Read .Byte addr temp m
  let value := Truncate8 temp
  (decide (cycles ≥ 0), value, m)

/-- Source `CPU::SafeReadMemoryHalfWord`. -/
def SafeReadMemoryHalfWord (K : BusConstants) (addr _value : Nat) (m : Machine) :
    Bool × Nat × Machine :=
  let temp := 0
  let (cycles, temp, m) := DoMemoryAccess K .Read .HalfWord addr temp m
  let value := Truncate16 temp
  (decide (cycles ≥ 0), value, m)

/-- Source `CPU::SafeReadMemoryWord`. -/
def SafeReadMemoryWord (K : BusConstants) (addr value : Nat) (m : Machine) :
    Bool × Nat × Machine :=
  let (cycles, value, m) := DoMemoryAccess K .Read .Word addr value m
  (decide (cycles ≥ 0), value, m)

/-- Source `CPU::SafeWriteMemoryByte`. -/
def SafeWriteMemoryByte (K : BusConstants) (addr value : Nat) (m : Machine) : Bool × Machine :=
  let temp := ZeroExtend32 value
  let (cycles, _, m) := DoMemoryAccess K .Write .Byte addr temp m
  (decide (cycles ≥ 0), m)

/-- Source `CPU::SafeWriteMemoryHalfWord`. -/
def SafeWriteMemoryHalfWord (K : BusConstants) (addr value : Nat) (m : Machine) :
    Bool × Machine :=
  let temp := ZeroExtend32 value
  let (cycles, _, m) := DoMemoryAccess K .Write .HalfWord addr temp m
  (decide (cycles ≥ 0), m)

/-- Source `CPU::SafeWriteMemoryWord`. -/
def SafeWriteMemoryWord (K : BusConstants) (addr value : Nat) (m : Machine) : Bool × Machine :=
  let (cycles, _, m) := DoMemoryAccess K .Write .Word addr value m
  (decide (cycles ≥ 0), m)

end CPU

/-! ## Typed and bulk entry points of the bus (lines 77-161) -/

/-- The mask of an access width: `0xFF`, `0xFFFF`, `0xFFFFFFFF`. -/
def MemoryAccessSize.mask : MemoryAccessSize → Nat
  | .Byte => 0xFF
  | .HalfWord => 0xFFFF
  | .Word => 0xFFFFFFFF

namespace Bus

/-- The implicit conversion of a `TickCount` to `bool` in
`const bool result = DispatchAccess<...>(...)` and in
`return DispatchAccess<...>(...)` of a function returning `bool`: true exactly
for a non-zero count. -/
def tickCountToBool (ticks : TickCount) : Bool := decide (ticks ≠ 0)

/-- Source `Bus::ReadByte`; the destination is passed and returned. -/
def ReadByte (K : BusConstants) (address _value : Nat) (s : System) : Bool × Nat × System :=
  let temp := 0
  let (ticks, temp, s) := DispatchAccess K .Read .Byte address temp s
  let result := tickCountToBool ticks
  let value := Truncate8 temp
  (result, value, s)

/-- Source `Bus::ReadHalfWord`. -/
def ReadHalfWord (K : BusConstants) (address _value : Nat) (s : System) : Bool × Nat × System :=
  let temp := 0
  let (ticks, temp, s) := DispatchAccess K .Read .HalfWord address temp s
  let result := tickCountToBool ticks
  let value := Truncate16 temp
  (result, value, s)

/-- Source `Bus::ReadWord`. -/
def ReadWord (K : BusConstants) (address value : Nat) (s : System) : Bool × Nat × System :=
  let (ticks, value, s) := DispatchAccess K .Read .Word address value s
  (tickCountToBool ticks, value, s)

/-- Source `Bus::WriteByte`: the dispatch is instantiated with
`MemoryAccessType::Read`, as in the source. -/
def WriteByte (K : BusConstants) (address value : Nat) (s : System) : Bool × System :=
  let temp := ZeroExtend32 value
  let (ticks, _, s) := DispatchAccess K .Read .Byte address temp s
  (tickCountToBool ticks, s)

/-- Source `Bus::WriteHalfWord`: the dispatch is instantiated with
`MemoryAccessType::Read`, as in the source. -/
def WriteHalfWord (K : BusConstants) (address value : Nat) (s : System) : Bool × System :=
  let temp := ZeroExtend32 value
  let (ticks, _, s) := DispatchAccess K .Read .HalfWord address temp s
  (tickCountToBool ticks, s)

/-- Source `Bus::WriteWord`. -/
def WriteWord (K : BusConstants) (address value : Nat) (s : System) : Bool × System :=
  let (ticks, _, s) := DispatchAccess K .Write .Word address value s
  (tickCountToBool ticks, s)

/-- Modelled from the spec: `RAM_BASE` and `RAM_SIZE` of `bus.h` (not among
the sources): RAM is 2 MiB at physical address 0 (section 3). -/
def RAM_BASE : Nat := 0x00000000

def RAM_SIZE : Nat := 0x200000

/-- The `memcpy` of `word_count` words out of a byte array into a word array:
word `i` is the little-endian word at `address + 4 * i`. A word array is the
function from the index to the word. -/
def copyWordsFromBytes (mem : Nat → Nat) (address : Nat) (words : Nat → Nat) (word_count : Nat) :
    Nat → Nat :=
  fun i => if i < word_count then readLE mem (address + 4 * i) 4 else words i

/-- The `memcpy` of `word_count` words of a word array into a byte array, word
`i` stored little-endian at `address + 4 * i`. -/
def copyWordsToBytes (mem : Nat → Nat) (address : Nat) (words : Nat → Nat) : Nat → Nat → Nat
  | 0 => mem
  | n + 1 => writeLE (copyWordsToBytes mem address words n) (address + 4 * n) (words n) 4

/-- The loop of `Bus::ReadWords` with `remaining` iterations left, at index
`i`. -/
def ReadWordsLoop (K : BusConstants) :
    Nat → Nat → Nat → TickCount → (Nat → Nat) → System → TickCount × (Nat → Nat) × System
  | 0, _, _, total_ticks, words, s => (total_ticks, words, s)
  | remaining + 1, i, address, total_ticks, words, s =>
    let (ticks, word, s) := DispatchAccess K .Read .Word address (words i) s
    let words := Function.update words i word
    if ticks < 0 then
      (-1, words, s)
    else
      ReadWordsLoop K remaining (i + 1) (addU32 address 4) (addS32 total_ticks ticks) words s

/-- Source `Bus::ReadWords`. The range test is evaluated in `size_t`, 64 bits
wide, where it does not wrap for 32-bit arguments. -/
def ReadWords (K : BusConstants) (address : Nat) (words : Nat → Nat) (word_count : Nat)
    (s : System) : TickCount × (Nat → Nat) × System :=
  if address + word_count * 4 > RAM_BASE + RAM_SIZE then
    ReadWordsLoop K word_count 0 address 0 words s
  else
    (K.GetDMARAMTickCount word_count, copyWordsFromBytes s.bus.m_ram address words word_count, s)

/-- The loop of `Bus::WriteWords` with `remaining` iterations left, at index
`i`. -/
def WriteWordsLoop (K : BusConstants) :
    Nat → Nat → Nat → TickCount → (Nat → Nat) → System → TickCount × System
  | 0, _, _, total_ticks, _, s => (total_ticks, s)
  | remaining + 1, i, address, total_ticks, words, s =>
    let value := words i
    let (ticks, _, s) := DispatchAccess K .Write .Word address value s
    if ticks < 0 then
      (-1, s)
    else
      WriteWordsLoop K remaining (i + 1) (addU32 address 4) (addS32 total_ticks ticks) words s

/-- Source `Bus::WriteWords`. -/
def WriteWords (K : BusConstants) (address : Nat) (words : Nat → Nat) (word_count : Nat)
    (s : System) : TickCount × System :=
  if address + word_count * 4 > RAM_BASE + RAM_SIZE then
    WriteWordsLoop K word_count 0 address 0 words s
  else
    let s := { s with bus := { s.bus with
      m_ram := copyWordsToBytes s.bus.m_ram address words word_count } }
    let s := { s with invalidated_code_pages := s.invalidated_code_pages ++ [(address, word_count)] }
    (K.GetDMARAMTickCount word_count, s)

/-- The successive writes of the values of a list, in order, to EXP2 offset
`0x23`. -/
def writeTTY (size : MemoryAccessSize) (values : List Nat) (s : System) : System :=
  values.foldl (fun st value => DoWriteEXP2 size 0x23 value st) s

end Bus

/-- What a safe probe must leave alone: no exception raised, `pending_ticks`
and `BadVaddr` as before. -/
def CPU.probeFrame (m m' : Machine) : Prop :=
  m'.g_state.raised = m.g_state.raised ∧
  m'.g_state.pending_ticks = m.g_state.pending_ticks ∧
  m'.g_state.BadVaddr = m.g_state.BadVaddr

/-! ## Concrete states used in evaluations -/

/-- A GPU whose register at offset 4 (physical `0x1F801814`) holds
`0xDEADBEEF`, every other register being zero. -/
def gpuStat : System :=
  { System.zero with
    g_gpu := { Device.zero with regs := fun offset => if offset = 4 then 0xDEADBEEF else 0 } }

/-- A GPU that answers every offset with `0xDEADBEEF`. -/
def gpuAll : System :=
  { System.zero with g_gpu := { Device.zero with regs := fun _ => 0xDEADBEEF } }

/-- The machine after reset with `pc = 0` and `npc = 8`, as after a branch
to address 8 taken from the instruction at 0. -/
def fetchAfterBranch : Machine :=
  { Machine.afterReset with g_state := { CPU.State.zero with pc := 0, npc := 8 } }

/-- The machine after reset with `pc = 0x1FFFFFFC` and `npc = 0x20000000`, the
first address of the unmapped part of KUSEG. -/
def fetchUnmapped : Machine :=
  { Machine.afterReset with g_state := { CPU.State.zero with pc := 0x1FFFFFFC, npc := 0x20000000 } }

/-- Two words handed to the bulk DMA entry points in evaluations. -/
def dmaSample : Nat → Nat := fun i => if i = 0 then 0x11223344 else 0xAABBCCDD

/-- A bus whose expansion ROM holds the five bytes `11 22 33 44 55`. -/
def exp1Sample : Bus := { Bus.zero with m_exp1_rom := [0x11, 0x22, 0x33, 0x44, 0x55] }

/-! # Theorems -/

theorem wrapS32_eq (x : Int) (h1 : -2147483648 ≤ x) (h2 : x < 2147483648) : wrapS32 x = x := by
  unfold wrapS32
  omega

theorem MEMDELAY.access_time_le (m : MEMDELAY) : m.access_time ≤ 15 := Nat.and_le_right

theorem COMDELAY.com0_le (c : COMDELAY) : c.com0 ≤ 15 := Nat.and_le_right

theorem COMDELAY.com2_le (c : COMDELAY) : c.com2 ≤ 15 := Nat.and_le_right

theorem COMDELAY.com3_le (c : COMDELAY) : c.com3 ≤ 15 := Nat.and_le_right

/-- The wrapped signed 32-bit arithmetic of `CalculateMemoryTiming` never
wraps: the code computes the specification's formula over the integers. -/
theorem CalculateMemoryTiming_unwrapped (m : MEMDELAY) (c : COMDELAY) :
    CalculateMemoryTiming m c = specMemoryTiming m c := by
  have ha := m.access_time_le
  have h0 := c.com0_le
  have h2 := c.com2_le
  have h3 := c.com3_le
  unfold CalculateMemoryTiming
  lift_lets
  intro z g0 g mn f2 f3 s3 f s byte half word
  have hg0 : g0 = if m.use_com0_time then (c.com0 : Int) - 1 else 0 := by
    simp only [g0, z, addS32, subS32, wrapS32]
    split_ifs <;> omega
  clear_value g0
  have hg : g = g0 + (if m.use_com2_time then (c.com2 : Int) else 0) := by
    simp only [g, addS32, wrapS32]
    split_ifs at hg0 ⊢ <;> omega
  clear_value g
  have hgb : -1 ≤ g ∧ g ≤ 29 := by
    split_ifs at hg0 hg <;> omega
  have hmn : mn = if m.use_com3_time then (c.com3 : Int) else 0 := by
    simp only [mn, z]
  clear_value mn
  have hmb : 0 ≤ mn ∧ mn ≤ 15 := by
    split_ifs at hmn <;> omega
  have hf2 : f2 = if g < 6 then g + 1 else g := by
    simp only [f2, addS32, wrapS32]
    split_ifs <;> omega
  clear_value f2
  have hf3 : f3 = f2 + ((m.access_time : Int) + 2) := by
    simp only [f3, addS32, wrapS32]
    split_ifs at hf2 <;> omega
  have hs3 : s3 = g + ((m.access_time : Int) + 2) := by
    simp only [s3, addS32, wrapS32]
    omega
  clear_value f3 s3
  have hf : f = if f3 < mn + 6 then mn + 6 else f3 := by
    simp only [f, addS32, wrapS32]
    split_ifs <;> omega
  have hs : s = if s3 < mn + 2 then mn + 2 else s3 := by
    simp only [s, addS32, wrapS32]
    split_ifs <;> omega
  clear_value f s
  have hfb : 6 ≤ f ∧ f ≤ 47 := by
    split_ifs at hf2 hf <;> omega
  have hsb : 2 ≤ s ∧ s ≤ 46 := by
    split_ifs at hs <;> omega
  have hhalf : @Eq Int half (if m.data_bus_16bit then f else f + s) := by
    simp only [half, addS32, wrapS32]
    split_ifs <;> omega
  have hword : @Eq Int word (if m.data_bus_16bit then f + s else f + 3 * s) := by
    simp only [word, addS32, wrapS32]
    split_ifs <;> omega
  have hbyte : @Eq Int byte f := rfl
  clear_value byte half word
  have e1 : subS32 byte 1 = byte - 1 := by
    simp only [subS32, wrapS32]
    omega
  have e2 : subS32 half 1 = half - 1 := by
    simp only [subS32, wrapS32]
    split_ifs at hhalf <;> omega
  have e3 : subS32 word 1 = word - 1 := by
    simp only [subS32, wrapS32]
    split_ifs at hword <;> omega
  rw [e1, e2, e3, hbyte, hhalf, hword, hf, hs, hf3, hs3, hf2, hmn, hg, hg0]
  rfl

/-- C1: for every MEMDELAY value and COMDELAY value, the triple computed by
`CalculateMemoryTiming` in wrapped signed 32-bit arithmetic is the triple of
the specification's formula: `(max(byte-1,0), max(half-1,0), max(word-1,0))`
with `first`, `seq`, `min` built as section 4.1 describes. -/
theorem C1_CalculateMemoryTiming_eq_spec (m : MEMDELAY) (c : COMDELAY) :
    CalculateMemoryTiming m c = specMemoryTiming m c :=
  CalculateMemoryTiming_unwrapped m c

/-- No register contents make the timing model return `(5, 11, 23)`: a byte
time of 5 and a halfword time of 11 force `first = seq = 6`, while the code
makes `first` exceed `seq` whenever `seq` is 6. -/
theorem CalculateMemoryTiming_ne_5_11_23 (m : MEMDELAY) (c : COMDELAY) :
    CalculateMemoryTiming m c ≠ (5, 11, 23) := by
  have ha := m.access_time_le
  have h0 := c.com0_le
  have h2 := c.com2_le
  have h3 := c.com3_le
  rw [CalculateMemoryTiming_unwrapped]
  unfold specMemoryTiming
  lift_lets
  intro gain mn f3 s3 f s byte half word
  intro h
  simp only [Prod.mk.injEq] at h
  obtain ⟨hb, hh, _⟩ := h
  have hgain : -1 ≤ gain := by
    simp only [gain]
    split_ifs <;> omega
  have hmn : 0 ≤ mn := by
    simp only [mn]
    split_ifs <;> omega
  have hf3 : f3 = (if gain < 6 then gain + 1 else gain) + ((m.access_time : Int) + 2) := rfl
  have hs3 : s3 = gain + ((m.access_time : Int) + 2) := rfl
  have hf : f = if f3 < mn + 6 then mn + 6 else f3 := rfl
  have hs : s = if s3 < mn + 2 then mn + 2 else s3 := rfl
  have hbyte : @Eq Int byte f := rfl
  have hhalf : @Eq Int half (if m.data_bus_16bit then f else f + s) := rfl
  clear_value gain mn f3 s3 f s byte half word
  rw [max_def] at hb hh
  split_ifs at hf3 hf hs hhalf hb hh <;> omega

/-! ### Memory-control registers -/

theorem notU32_three : notU32 3 = 4294967292 := by decide

theorem notU32_lt (x : Nat) : notU32 x < 4294967296 := by
  unfold notU32 truncU32
  exact Nat.xor_lt_two_pow (n := 32) (by norm_num) (Nat.mod_lt _ (by norm_num))

theorem testBit_alignMask (i : Nat) :
    (4294967292 : Nat).testBit i = (decide (2 ≤ i) && decide (i < 32)) := by
  rcases Nat.lt_or_ge i 32 with hi | hi
  · interval_cases i <;> decide
  · have h : (4294967292 : Nat) < 2 ^ i :=
      lt_of_lt_of_le (by norm_num : (4294967292 : Nat) < 2 ^ 32)
        (Nat.pow_le_pow_right (by norm_num) hi)
    rw [Nat.testBit_lt_two_pow h]
    simp
    omega

/-- Aligning a 32-bit offset down to a multiple of four. -/
theorem and_notU32_three (o : Nat) (h : o < 4294967296) : o &&& notU32 3 = 4 * (o / 4) := by
  have e : 4 * (o / 4) = (o >>> 2) <<< 2 := by
    rw [Nat.shiftLeft_eq, Nat.shiftRight_eq_div_pow]; omega
  rw [notU32_three, e]
  apply Nat.eq_of_testBit_eq
  intro i
  rw [Nat.testBit_and, testBit_alignMask, Nat.testBit_shiftLeft, Nat.testBit_shiftRight]
  rcases Nat.lt_or_ge i 2 with h2 | h2
  · have : ¬ (2 ≤ i) := by omega
    simp [this]
  · have e2 : 2 + (i - 2) = i := by omega
    rcases Nat.lt_or_ge i 32 with hi | hi
    · simp [h2, hi, e2]
    · have hlt : o < 2 ^ i := lt_of_lt_of_le h (by
        have := Nat.pow_le_pow_right (by norm_num : 1 ≤ 2) hi
        simpa using this)
      simp [Nat.testBit_lt_two_pow hlt, e2]

theorem and_three (o : Nat) : o &&& 3 = o % 4 := Nat.and_pow_two_sub_one_eq_mod o 2

/-- On a word-aligned 32-bit offset and a 32-bit value the fix-up changes
nothing. -/
theorem FixupUnalignedWordAccessW32_aligned (o v : Nat) (ho : o % 4 = 0) (hlt : o < 4294967296)
    (hv : v < 4294967296) : FixupUnalignedWordAccessW32 o v = (o, v) := by
  unfold FixupUnalignedWordAccessW32
  simp only [and_three, and_notU32_three o hlt, ho, shlU32, truncU32, Nat.zero_mul,
    Nat.shiftLeft_zero, Nat.mod_eq_of_lt hv, Prod.mk.injEq, and_true]
  omega

theorem MEMCTRL.get_set_same (r : MEMCTRL) (i v : Nat) (hi : i ≤ 8) : (r.set i v).get i = v := by
  interval_cases i <;> rfl

theorem MEMCTRL.get_set_other (r : MEMCTRL) (i j v : Nat) (hij : j ≠ i) :
    (r.set i v).get j = r.get j := by
  unfold MEMCTRL.set
  split <;> (unfold MEMCTRL.get; split <;> first | rfl | (exfalso; omega))

/-- What a register write leaves in the register block: the addressed
register holds the merged value, every other register is as before. -/
theorem Bus.DoWriteMemoryControl_regs (K : BusConstants) (size : MemoryAccessSize) (o v : Nat)
    (b : Bus) (ho : o % 4 = 0) (hle : o ≤ 0x20) (hv : v < 4294967296) :
    (b.DoWriteMemoryControl K size o v).m_MEMCTRL.get (o / 4) =
        ((b.m_MEMCTRL.get (o / 4) &&& notU32 (if o / 4 = 8 then K.COMDELAY_WRITE_MASK else K.MEMDELAY_WRITE_MASK)) |||
          (v &&& (if o / 4 = 8 then K.COMDELAY_WRITE_MASK else K.MEMDELAY_WRITE_MASK))) ∧
      ∀ j, j ≠ o / 4 → (b.DoWriteMemoryControl K size o v).m_MEMCTRL.get j = b.m_MEMCTRL.get j := by
  have hidx : o / 4 ≤ 8 := by omega
  unfold Bus.DoWriteMemoryControl
  rw [FixupUnalignedWordAccessW32_aligned o v ho (by omega) hv]
  simp only []
  generalize o / 4 = idx at hidx ⊢
  generalize (if idx = 8 then K.COMDELAY_WRITE_MASK else K.MEMDELAY_WRITE_MASK) = mask
  generalize (b.m_MEMCTRL.get idx &&& notU32 mask ||| v &&& mask) = nv
  by_cases hne : b.m_MEMCTRL.get idx = nv
  · rw [if_neg (not_not.mpr hne)]
    exact ⟨hne, fun _ _ => rfl⟩
  · rw [if_pos hne]
    exact ⟨MEMCTRL.get_set_same _ _ _ hidx, fun j hj => MEMCTRL.get_set_other _ _ _ _ hj⟩

theorem merged_lt (prev v mask : Nat) (hv : v < 4294967296) :
    (prev &&& notU32 mask) ||| (v &&& mask) < 4294967296 :=
  Nat.or_lt_two_pow (n := 32) (lt_of_le_of_lt Nat.and_le_right (notU32_lt mask))
    (lt_of_le_of_lt Nat.and_le_left hv)

theorem Bus.DoReadMemoryControl_aligned (size : MemoryAccessSize) (o : Nat) (b : Bus)
    (ho : o % 4 = 0) (hle : o ≤ 0x20) (hreg : b.m_MEMCTRL.get (o / 4) < 4294967296) :
    b.DoReadMemoryControl size o = b.m_MEMCTRL.get (o / 4) := by
  simp only [Bus.DoReadMemoryControl, FixupUnalignedWordAccessW32_aligned o _ ho (by omega) hreg]

/-- C2: for a word-aligned offset `o` in `[0, 0x1C]`, every prior register
block and every 32-bit `v`, reading `o` back after writing `v` to it returns
`(prev & ~mask) | (v & mask)` with `mask = MEMDELAY::WRITE_MASK`; for
`o = 0x20` the same holds with `COMDELAY::WRITE_MASK`; in both cases the eight
other registers keep their values. -/
theorem C2_memctrl_write_then_read (K : BusConstants) (size size' : MemoryAccessSize) (b : Bus)
    (o v : Nat) (ho : o % 4 = 0) (hle : o ≤ 0x20) (hv : v < 4294967296) :
    (o ≤ 0x1C → (b.DoWriteMemoryControl K size o v).DoReadMemoryControl size' o =
        (b.m_MEMCTRL.get (o / 4) &&& notU32 K.MEMDELAY_WRITE_MASK) ||| (v &&& K.MEMDELAY_WRITE_MASK)) ∧
    (o = 0x20 → (b.DoWriteMemoryControl K size o v).DoReadMemoryControl size' o =
        (b.m_MEMCTRL.get (o / 4) &&& notU32 K.COMDELAY_WRITE_MASK) ||| (v &&& K.COMDELAY_WRITE_MASK)) ∧
    (∀ j, j ≠ o / 4 → (b.DoWriteMemoryControl K size o v).m_MEMCTRL.get j = b.m_MEMCTRL.get j) := by
  obtain ⟨hsame, hother⟩ := Bus.DoWriteMemoryControl_regs K size o v b ho hle hv
  have hread : (b.DoWriteMemoryControl K size o v).DoReadMemoryControl size' o =
      (b.DoWriteMemoryControl K size o v).m_MEMCTRL.get (o / 4) := by
    apply Bus.DoReadMemoryControl_aligned _ _ _ ho hle
    rw [hsame]
    exact merged_lt _ _ _ hv
  refine ⟨fun h => ?_, fun h => ?_, hother⟩
  · rw [hread, hsame, if_neg (by omega)]
  · rw [hread, hsame, if_pos (by omega)]

/-- C2, at a concrete input: after reset, writing `0xFFFFFFFF` to
`bios_delay_size` (offset `0x10`) with the sample constants. -/
theorem C2_memctrl_write_then_read_witness :
    (0x10 % 4 = 0 ∧ 0x10 ≤ 0x20 ∧ 0xFFFFFFFF < 4294967296) ∧
    ((0x10 ≤ 0x1C → ((Bus.Reset Bus.zero).DoWriteMemoryControl BusConstants.sample .Word 0x10
          0xFFFFFFFF).DoReadMemoryControl .Word 0x10 =
        ((Bus.Reset Bus.zero).m_MEMCTRL.get (0x10 / 4) &&& notU32 BusConstants.sample.MEMDELAY_WRITE_MASK) |||
          (0xFFFFFFFF &&& BusConstants.sample.MEMDELAY_WRITE_MASK)) ∧
    (0x10 = 0x20 → ((Bus.Reset Bus.zero).DoWriteMemoryControl BusConstants.sample .Word 0x10
          0xFFFFFFFF).DoReadMemoryControl .Word 0x10 =
        ((Bus.Reset Bus.zero).m_MEMCTRL.get (0x10 / 4) &&& notU32 BusConstants.sample.COMDELAY_WRITE_MASK) |||
          (0xFFFFFFFF &&& BusConstants.sample.COMDELAY_WRITE_MASK)) ∧
    (∀ j, j ≠ 0x10 / 4 → ((Bus.Reset Bus.zero).DoWriteMemoryControl BusConstants.sample .Word 0x10
          0xFFFFFFFF).m_MEMCTRL.get j = (Bus.Reset Bus.zero).m_MEMCTRL.get j)) :=
  ⟨by decide, C2_memctrl_write_then_read BusConstants.sample .Word .Word (Bus.Reset Bus.zero)
    0x10 0xFFFFFFFF (by decide) (by decide) (by decide)⟩

theorem Bus.TimingInvariant_RecalculateMemoryTimings (b : Bus) :
    b.RecalculateMemoryTimings.TimingInvariant :=
  ⟨rfl, rfl, rfl⟩

/-- C3: the three stored access-time triples are `CalculateMemoryTiming` of
the current `bios_delay_size`, `cdrom_delay_size`, `spu_delay_size` and
`common_delay` immediately after `Reset`, and every `DoWriteMemoryControl` at
an offset in `[0, 0x23]` keeps this true, whether or not the write changes a
register. -/
theorem C3_timing_invariant :
    (∀ b : Bus, b.Reset.TimingInvariant) ∧
    (∀ (K : BusConstants) (size : MemoryAccessSize) (offset value : Nat) (b : Bus),
      offset ≤ 0x23 → b.TimingInvariant → (b.DoWriteMemoryControl K size offset value).TimingInvariant) := by
  refine ⟨fun b => Bus.TimingInvariant_RecalculateMemoryTimings _, ?_⟩
  intro K size offset value b _ hinv
  unfold Bus.DoWriteMemoryControl
  simp only []
  split_ifs <;> first | exact Bus.TimingInvariant_RecalculateMemoryTimings _ | exact hinv

/-- C3, at a concrete input: after reset, a byte write of `0xFF` at offset
`0x21` (byte lane 1 of `common_delay`), which changes `common_delay`. -/
theorem C3_timing_invariant_witness :
    0x21 ≤ 0x23 ∧ (Bus.Reset Bus.zero).TimingInvariant ∧
    ((Bus.Reset Bus.zero).DoWriteMemoryControl BusConstants.sample .Byte 0x21 0xFF).TimingInvariant :=
  ⟨by decide, C3_timing_invariant.1 _,
    C3_timing_invariant.2 BusConstants.sample .Byte 0x21 0xFF (Bus.Reset Bus.zero) (by decide)
      (C3_timing_invariant.1 _)⟩

/-- C4 as stated fails: after `Reset` the stored BIOS triple is not
`(5, 11, 23)`. -/
theorem C4_reset_bios_access_time_not_5_11_23 :
    (Bus.Reset Bus.zero).m_bios_access_time ≠ (5, 11, 23) := by
  decide

/-- C4, amended: after `Reset` (`bios_delay_size = 0x0013243F`, an 8-bit bus,
`common_delay = 0x00031125`) the stored triple `bios_access_time` is
`(6, 12, 24)`. -/
theorem C4_reset_bios_access_time (b : Bus) : b.Reset.m_bios_access_time = (6, 12, 24) := by
  show CalculateMemoryTiming ⟨0x0013243F⟩ ⟨0x00031125⟩ = (6, 12, 24)
  decide

/-! ### Word-lane fix-ups of the 32-bit peripherals -/

/-- C5, the code at the failing input: with `0xDEADBEEF` in the GPU register
at offset 4, `DoReadGPU` for a byte at offset 5 calls `ReadRegister(5)`, not
`ReadRegister(4)`, and returns 0 where the claim has `0xBE`; for a halfword at
offset 6 it calls `ReadRegister(6)` and returns 0 where the claim has `0xDEAD`.
Even when the GPU answers every offset with `0xDEADBEEF`, the value is shifted
left and the two reads give `0xADBEEF00` and `0xBEEF0000`, whose low byte and
low halfword are 0. `DoReadDMA` at the same offsets returns `0xDEADBE` and
`0xDEAD`. -/
theorem C5_DoReadGPU_shifts_left :
    (Bus.DoReadGPU .Byte 5 gpuStat).2.g_gpu.reads = [5] ∧
    (Bus.DoReadGPU .Byte 5 gpuStat).1 = 0 ∧
    (Bus.DoReadGPU .HalfWord 6 gpuStat).2.g_gpu.reads = [6] ∧
    (Bus.DoReadGPU .HalfWord 6 gpuStat).1 = 0 ∧
    (Bus.DoReadGPU .Byte 5 gpuAll).1 = 0xADBEEF00 ∧
    Truncate8 (Bus.DoReadGPU .Byte 5 gpuAll).1 = 0 ∧
    (Bus.DoReadGPU .HalfWord 6 gpuAll).1 = 0xBEEF0000 ∧
    Truncate16 (Bus.DoReadGPU .HalfWord 6 gpuAll).1 = 0 ∧
    (Bus.DoReadDMA .Byte 5 { System.zero with g_dma := gpuStat.g_gpu }).1 = 0xDEADBE ∧
    (Bus.DoReadDMA .Byte 5 { System.zero with g_dma := gpuStat.g_gpu }).2.g_dma.reads = [4] ∧
    (Bus.DoReadDMA .HalfWord 6 { System.zero with g_dma := gpuStat.g_gpu }).1 = 0xDEAD := by
  decide

/-- C6: for every raw offset `o` and value `v`, each of `DoWriteGPU`,
`DoWriteMDEC`, `DoWriteInterruptController` and `DoWriteTimers` adds exactly
one `WriteRegister` call to its peripheral, at offset `o & ~3` with value
`(v << ((o & 3) * 8)) mod 2^32`, and changes nothing else; when `o` is a
word-aligned 32-bit offset and `v` a 32-bit value, that call is
`WriteRegister(o, v)`. -/
theorem C6_word_lane_write_fixup (size : MemoryAccessSize) (o v : Nat) (s : System) :
    (Bus.DoWriteGPU size o v s = { s with g_gpu := { s.g_gpu with
        writes := s.g_gpu.writes ++ [(o &&& 0xFFFFFFFC, (v <<< ((o &&& 3) * 8)) % 4294967296)] } } ∧
     Bus.DoWriteMDEC size o v s = { s with g_mdec := { s.g_mdec with
        writes := s.g_mdec.writes ++ [(o &&& 0xFFFFFFFC, (v <<< ((o &&& 3) * 8)) % 4294967296)] } } ∧
     Bus.DoWriteInterruptController size o v s = { s with g_interrupt_controller :=
        { s.g_interrupt_controller with writes := s.g_interrupt_controller.writes ++
            [(o &&& 0xFFFFFFFC, (v <<< ((o &&& 3) * 8)) % 4294967296)] } } ∧
     Bus.DoWriteTimers size o v s = { s with g_timers := { s.g_timers with
        writes := s.g_timers.writes ++ [(o &&& 0xFFFFFFFC, (v <<< ((o &&& 3) * 8)) % 4294967296)] } }) ∧
    (o % 4 = 0 → o < 4294967296 → v < 4294967296 →
      (Bus.DoWriteGPU size o v s).g_gpu.writes = s.g_gpu.writes ++ [(o, v)] ∧
      (Bus.DoWriteMDEC size o v s).g_mdec.writes = s.g_mdec.writes ++ [(o, v)] ∧
      (Bus.DoWriteInterruptController size o v s).g_interrupt_controller.writes =
        s.g_interrupt_controller.writes ++ [(o, v)] ∧
      (Bus.DoWriteTimers size o v s).g_timers.writes = s.g_timers.writes ++ [(o, v)]) := by
  refine ⟨⟨rfl, rfl, rfl, rfl⟩, fun ho hlt hv => ?_⟩
  simp only [Bus.DoWriteGPU, Bus.DoWriteMDEC, Bus.DoWriteInterruptController, Bus.DoWriteTimers,
    FixupUnalignedWordAccessW32_aligned o v ho hlt hv, Device.WriteRegister, and_self]

/-- C6, at a concrete input: a word write of `0x12345678` at offset `0x4`. -/
theorem C6_word_lane_write_fixup_witness :
    (Bus.DoWriteGPU .Word 4 0x12345678 System.zero).g_gpu.writes = [(4, 0x12345678)] ∧
    (Bus.DoWriteGPU .Byte 5 0xAB System.zero).g_gpu.writes = [(4, 0xAB00)] := by
  refine ⟨?_, ?_⟩
  · exact ((C6_word_lane_write_fixup .Word 4 0x12345678 System.zero).2 (by decide) (by decide)
      (by decide)).1
  · exact congrArg (fun t : System => t.g_gpu.writes)
      (C6_word_lane_write_fixup .Byte 5 0xAB System.zero).1.1

theorem and_fifteen (o : Nat) : o &&& 15 = o % 16 := Nat.and_pow_two_sub_one_eq_mod o 4

/-- C7: for every byte or halfword `DoWriteDMA` at a 32-bit offset `off` with
a zero-extended value `v`: if `(off & 0xF0) < 0x70` and `(off & 0x0F) == 0x04`
the DMA controller receives exactly `WriteRegister(off, v)`; for every other
narrow write it receives `WriteRegister(off & ~3, v << ((off & 3) * 8))`; a
word write is forwarded as `WriteRegister(off, v)`. Nothing else changes. -/
theorem C7_dma_narrow_write (off v : Nat) (s : System) (hoff : off < 4294967296)
    (hv : v < 4294967296) :
    (∀ size, size = MemoryAccessSize.Byte ∨ size = MemoryAccessSize.HalfWord →
      ((off &&& 0xF0) < 0x70 ∧ (off &&& 0x0F) = 0x04 →
        Bus.DoWriteDMA size off v s =
          { s with g_dma := { s.g_dma with writes := s.g_dma.writes ++ [(off, v)] } }) ∧
      (¬ ((off &&& 0xF0) < 0x70 ∧ (off &&& 0x0F) = 0x04) →
        Bus.DoWriteDMA size off v s =
          { s with g_dma := { s.g_dma with writes := s.g_dma.writes ++
              [(off &&& 0xFFFFFFFC, (v <<< ((off &&& 3) * 8)) % 4294967296)] } })) ∧
    Bus.DoWriteDMA .Word off v s =
      { s with g_dma := { s.g_dma with writes := s.g_dma.writes ++ [(off, v)] } } := by
  refine ⟨?_, rfl⟩
  intro size hsize
  have hnarrow : Bus.DoWriteDMA size off v s =
      (fun p : Nat × Nat => { s with g_dma := s.g_dma.WriteRegister p.1 p.2 })
        (if (off &&& 0xF0) < 7 ∧ (off &&& 0x0F) = 0x4 then (off, ZeroExtend32 v)
          else FixupUnalignedWordAccessW32 off v) := by
    rcases hsize with rfl | rfl <;> rfl
  rw [hnarrow]
  constructor
  · rintro ⟨_, h4⟩
    have hal : off % 4 = 0 := by
      have := and_fifteen off
      omega
    have hfix := FixupUnalignedWordAccessW32_aligned off v hal hoff hv
    split_ifs <;> simp only [hfix, ZeroExtend32, Device.WriteRegister]
  · intro hnot
    have hcode : ¬ ((off &&& 0xF0) < 7 ∧ (off &&& 0x0F) = 0x4) := fun h =>
      hnot ⟨lt_trans h.1 (by norm_num), h.2⟩
    rw [if_neg hcode]
    rfl

/-- C7, at concrete inputs: a halfword write of `0x1234` to the block-count
register of channel 1 (offset `0x14`), where the source's test
`(offset & 0xF0) < 7` fails and the fix-up path is taken; and a byte write of
`0xAB` at offset `0x16`. -/
theorem C7_dma_narrow_write_witness :
    (0x14 < 4294967296 ∧ 0x1234 < 4294967296) ∧
    (Bus.DoWriteDMA .HalfWord 0x14 0x1234 System.zero).g_dma.writes = [(0x14, 0x1234)] ∧
    (Bus.DoWriteDMA .Byte 0x16 0xAB System.zero).g_dma.writes = [(0x14, 0xAB0000)] := by
  refine ⟨by decide, ?_, ?_⟩
  · exact congrArg (fun t : System => t.g_dma.writes)
      (((C7_dma_narrow_write 0x14 0x1234 System.zero (by decide) (by decide)).1 .HalfWord
        (Or.inr rfl)).1 (by decide))
  · exact congrArg (fun t : System => t.g_dma.writes)
      (((C7_dma_narrow_write 0x16 0xAB System.zero (by decide) (by decide)).1 .Byte
        (Or.inl rfl)).2 (by decide))

/-- C8, the code at the failing input: a byte write of `0xAB` to the odd SPU
offset 1 performs the single halfword call `WriteRegister(0, 0)`: the value is
shifted right by 8, where the claim has it shifted left, `WriteRegister(0,
0xAB00)`, which is what `FIXUP_HALFWORD_WRITE_VALUE` gives. At the even offset
0 the call is `WriteRegister(0, 0xAB)`. -/
theorem C8_DoWriteSPU_byte_odd_delivers_zero :
    (Bus.DoWriteSPU .Byte 1 0xAB System.zero).g_spu.writes = [(0, 0)] ∧
    FIXUP_HALFWORD_WRITE_VALUE 1 0xAB = 0xAB00 ∧
    (Bus.DoWriteSPU .Byte 0 0xAB System.zero).g_spu.writes = [(0, 0xAB)] := by
  decide

/-! ### Segment mapper -/

/-- The mapper changes nothing of the CPU state but the scratchpad and the
cache-control word. -/
theorem CPU.DoMemoryAccess_frame (K : BusConstants) (type : MemoryAccessType)
    (size : MemoryAccessSize) (address value : Nat) (m : Machine) :
    ∃ dc cc sys, (CPU.DoMemoryAccess K type size address value m).2.2 =
      { g_state := { m.g_state with dcache := dc, cache_control := cc }, sys := sys } := by
  have hid : ∃ dc cc sys, m =
      { g_state := { m.g_state with dcache := dc, cache_control := cc }, sys := sys } :=
    ⟨_, _, _, rfl⟩
  have hsp : ∀ phys, ∃ dc cc sys, (CPU.DoScratchpadAccess type size phys value m).2 =
      { g_state := { m.g_state with dcache := dc, cache_control := cc }, sys := sys } := by
    intro phys
    unfold CPU.DoScratchpadAccess
    cases size <;> cases type <;> exact ⟨_, _, _, rfl⟩
  have hdi : ∀ phys, ∃ dc cc sys, (CPU.dispatch K type size phys value m).2.2 =
      { g_state := { m.g_state with dcache := dc, cache_control := cc }, sys := sys } :=
    fun phys => ⟨_, _, _, rfl⟩
  unfold CPU.DoMemoryAccess
  simp only []
  split <;> (try split_ifs) <;>
    first
      | exact hid
      | exact hsp _
      | exact hdi _
      | (cases type <;> exact ⟨_, _, _, rfl⟩)

/-- A load through the mapper does not look at `Isc`: with the flag set to
any value, the tick count and the value are the same and the machine after
the load differs only in the flag. -/
theorem CPU.DoMemoryAccess_read_setIsc (K : BusConstants) (isc : Bool) (size : MemoryAccessSize)
    (address value : Nat) (m : Machine) :
    CPU.DoMemoryAccess K .Read size address value (CPU.setIsc isc m) =
      ((CPU.DoMemoryAccess K .Read size address value m).1,
        (CPU.DoMemoryAccess K .Read size address value m).2.1,
        CPU.setIsc isc (CPU.DoMemoryAccess K .Read size address value m).2.2) := by
  have hsp : ∀ phys, CPU.DoScratchpadAccess .Read size phys value (CPU.setIsc isc m) =
      ((CPU.DoScratchpadAccess .Read size phys value m).1,
        CPU.setIsc isc (CPU.DoScratchpadAccess .Read size phys value m).2) := by
    intro phys
    cases size <;> rfl
  unfold CPU.DoMemoryAccess
  simp only [false_and, if_false, reduceCtorEq]
  split <;> (try split_ifs) <;> first | rfl | rw [hsp]

/-- C9: with `COP0.SR.Isc = 1`, a store of any width and value through the
mapper to any address of KUSEG (top three bits 000) or KSEG0 (top three bits
100) returns 0 ticks and leaves the whole machine (RAM, scratchpad, MEMCTRL,
`cache_control`, every peripheral) unchanged, so every later load returns
what it returned before the store; and a load returns the same tick count and
value whether `Isc` is 0 or 1. -/
theorem C9_isc_store_suppressed (K : BusConstants) (size : MemoryAccessSize)
    (address value : Nat) (m : Machine) (hIsc : m.g_state.Isc = true)
    (hseg : address >>> 29 = 0 ∨ address >>> 29 = 4) :
    CPU.DoMemoryAccess K .Write size address value m = (0, value, m) ∧
    (∀ size' a' v', CPU.DoMemoryAccess K .Read size' a' v'
        (CPU.DoMemoryAccess K .Write size address value m).2.2 =
      CPU.DoMemoryAccess K .Read size' a' v' m) ∧
    (∀ (isc : Bool) (m' : Machine) size' a' v',
      (CPU.DoMemoryAccess K .Read size' a' v' (CPU.setIsc isc m')).1 =
        (CPU.DoMemoryAccess K .Read size' a' v' m').1 ∧
      (CPU.DoMemoryAccess K .Read size' a' v' (CPU.setIsc isc m')).2.1 =
        (CPU.DoMemoryAccess K .Read size' a' v' m').2.1) := by
  have hstore : CPU.DoMemoryAccess K .Write size address value m = (0, value, m) := by
    unfold CPU.DoMemoryAccess
    rcases hseg with h | h <;> rw [h] <;> simp only [hIsc, and_self, if_true]
  refine ⟨hstore, ?_, ?_⟩
  · intro size' a' v'
    rw [hstore]
  · intro isc m' size' a' v'
    rw [CPU.DoMemoryAccess_read_setIsc]
    exact ⟨rfl, rfl⟩

/-- C9, the scenario of the specification: after reset, with `Isc` set, a
word store of `0x12345678` to `0x80000000` changes nothing, and the word then
read at `0xA0000000` with `Isc` cleared is `0x00000000`, at 0 ticks. -/
theorem C9_isc_store_suppressed_witness :
    ((CPU.setIsc true Machine.afterReset).g_state.Isc = true ∧
      (0x80000000 >>> 29 = 0 ∨ 0x80000000 >>> 29 = 4)) ∧
    CPU.DoMemoryAccess BusConstants.sample .Write .Word 0x80000000 0x12345678
        (CPU.setIsc true Machine.afterReset) =
      (0, 0x12345678, CPU.setIsc true Machine.afterReset) ∧
    (CPU.DoMemoryAccess BusConstants.sample .Read .Word 0xA0000000 0xFFFFFFFF
        (CPU.setIsc false (CPU.DoMemoryAccess BusConstants.sample .Write .Word 0x80000000
          0x12345678 (CPU.setIsc true Machine.afterReset)).2.2)).1 = 0 ∧
    (CPU.DoMemoryAccess BusConstants.sample .Read .Word 0xA0000000 0xFFFFFFFF
        (CPU.setIsc false (CPU.DoMemoryAccess BusConstants.sample .Write .Word 0x80000000
          0x12345678 (CPU.setIsc true Machine.afterReset)).2.2)).2.1 = 0 := by
  have h := C9_isc_store_suppressed BusConstants.sample .Word 0x80000000 0x12345678
    (CPU.setIsc true Machine.afterReset) rfl (Or.inr (by decide))
  refine ⟨⟨rfl, Or.inr (by decide)⟩, h.1, ?_, ?_⟩
  · rw [h.1]
    decide
  · rw [h.1]
    decide

/-- With `Isc` clear the same store reaches RAM: the word read back through
KSEG1 is the stored one. -/
theorem CPU.store_reaches_ram_without_isc :
    (CPU.DoMemoryAccess BusConstants.sample .Read .Word 0xA0000000 0xFFFFFFFF
      (CPU.DoMemoryAccess BusConstants.sample .Write .Word 0x80000000 0x12345678
        Machine.afterReset).2.2).2.1 = 0x12345678 := by
  decide

theorem CPU.IsAlignedPow2_two (a : Nat) : CPU.IsAlignedPow2 a 2 = true ↔ a % 2 = 0 := by
  unfold CPU.IsAlignedPow2
  rw [show (2 - 1 : Nat) = 2 ^ 1 - 1 by norm_num, Nat.and_pow_two_sub_one_eq_mod, beq_iff_eq]

theorem CPU.IsAlignedPow2_four (a : Nat) : CPU.IsAlignedPow2 a 4 = true ↔ a % 4 = 0 := by
  unfold CPU.IsAlignedPow2
  rw [show (4 - 1 : Nat) = 2 ^ 2 - 1 by norm_num, Nat.and_pow_two_sub_one_eq_mod, beq_iff_eq]

/-- The machine after an alignment fault: `BadVaddr` holds the address and
the exception has been raised; nothing else differs. -/
theorem CPU.DoAlignmentCheck_misaligned (type : MemoryAccessType) (size : MemoryAccessSize)
    (a : Nat) (m : Machine)
    (h : (size = MemoryAccessSize.HalfWord ∧ a % 2 = 1) ∨ (size = MemoryAccessSize.Word ∧ a % 4 ≠ 0)) :
    CPU.DoAlignmentCheck type size a m =
      (false, { m with g_state := { m.g_state with
        BadVaddr := a
        raised := m.g_state.raised ++
          [⟨if type = MemoryAccessType.Read then Exception.AdEL else Exception.AdES, none⟩] } }) := by
  rcases h with ⟨rfl, h⟩ | ⟨rfl, h⟩
  · have : CPU.IsAlignedPow2 a 2 = false := by
      rw [← Bool.not_eq_true, CPU.IsAlignedPow2_two]
      omega
    simp only [CPU.DoAlignmentCheck, this, Bool.false_eq_true, if_false]
    rfl
  · have : CPU.IsAlignedPow2 a 4 = false := by
      rw [← Bool.not_eq_true, CPU.IsAlignedPow2_four]
      exact h
    simp only [CPU.DoAlignmentCheck, this, Bool.false_eq_true, if_false]
    rfl

/-- C10: for every virtual address `a`, mapped or not: a halfword store at an
odd `a` and a word store at an `a` that is not a multiple of 4 return false,
set `BadVaddr = a`, raise `AdES` and change nothing else (no memory access,
`pending_ticks` as before); the halfword and word loads at such an address do
the same with `AdEL` and leave the destination as it was; no `DBE` is raised;
and a byte load or store never raises `AdEL` or `AdES` and never writes
`BadVaddr`: it raises nothing or exactly one `DBE`. -/
theorem C10_alignment_faults (K : BusConstants) (a v dest : Nat) (m : Machine) :
    (a % 2 = 1 →
      CPU.WriteMemoryHalfWord K a v m =
        (false, { m with g_state := { m.g_state with
          BadVaddr := a, raised := m.g_state.raised ++ [⟨CPU.Exception.AdES, none⟩] } }) ∧
      CPU.ReadMemoryHalfWord K a dest m =
        (false, dest, { m with g_state := { m.g_state with
          BadVaddr := a, raised := m.g_state.raised ++ [⟨CPU.Exception.AdEL, none⟩] } })) ∧
    (a % 4 ≠ 0 →
      CPU.WriteMemoryWord K a v m =
        (false, { m with g_state := { m.g_state with
          BadVaddr := a, raised := m.g_state.raised ++ [⟨CPU.Exception.AdES, none⟩] } }) ∧
      CPU.ReadMemoryWord K a dest m =
        (false, dest, { m with g_state := { m.g_state with
          BadVaddr := a, raised := m.g_state.raised ++ [⟨CPU.Exception.AdEL, none⟩] } })) ∧
    (((CPU.WriteMemoryByte K a v m).2.g_state.raised = m.g_state.raised ∨
        (CPU.WriteMemoryByte K a v m).2.g_state.raised =
          m.g_state.raised ++ [⟨CPU.Exception.DBE, none⟩]) ∧
      (CPU.WriteMemoryByte K a v m).2.g_state.BadVaddr = m.g_state.BadVaddr) ∧
    (((CPU.ReadMemoryByte K a dest m).2.2.g_state.raised = m.g_state.raised ∨
        (CPU.ReadMemoryByte K a dest m).2.2.g_state.raised =
          m.g_state.raised ++ [⟨CPU.Exception.DBE, none⟩]) ∧
      (CPU.ReadMemoryByte K a dest m).2.2.g_state.BadVaddr = m.g_state.BadVaddr) := by
  refine ⟨fun h => ⟨?_, ?_⟩, fun h => ⟨?_, ?_⟩, ?_, ?_⟩
  · simp only [CPU.WriteMemoryHalfWord,
      CPU.DoAlignmentCheck_misaligned .Write .HalfWord a m (Or.inl ⟨rfl, h⟩)]
    rfl
  · simp only [CPU.ReadMemoryHalfWord,
      CPU.DoAlignmentCheck_misaligned .Read .HalfWord a m (Or.inl ⟨rfl, h⟩)]
    rfl
  · simp only [CPU.WriteMemoryWord,
      CPU.DoAlignmentCheck_misaligned .Write .Word a m (Or.inr ⟨rfl, h⟩)]
    rfl
  · simp only [CPU.ReadMemoryWord,
      CPU.DoAlignmentCheck_misaligned .Read .Word a m (Or.inr ⟨rfl, h⟩)]
    rfl
  · obtain ⟨dc, cc, sys, hfr⟩ := CPU.DoMemoryAccess_frame K .Write .Byte a (ZeroExtend32 v) m
    unfold CPU.WriteMemoryByte
    simp only []
    split_ifs <;> simp [CPU.RaiseException, hfr]
  · obtain ⟨dc, cc, sys, hfr⟩ := CPU.DoMemoryAccess_frame K .Read .Byte a 0 m
    unfold CPU.ReadMemoryByte
    simp only []
    split_ifs <;> simp [CPU.RaiseException, CPU.addPendingTicks, hfr]

/-- C10, at concrete inputs: after reset, the odd address `0x20000001` and the
address `0x20000002` (not a multiple of 4) lie in the unmapped part of KUSEG
(top three bits 001), where an aligned access is a bus error: the misaligned
accesses raise the address error and no `DBE`. -/
theorem C10_alignment_faults_witness :
    (0x20000001 % 2 = 1 ∧ 0x20000002 % 4 ≠ 0) ∧
    (CPU.WriteMemoryHalfWord BusConstants.sample 0x20000001 0xABCD Machine.afterReset).1 = false ∧
    (CPU.WriteMemoryHalfWord BusConstants.sample 0x20000001 0xABCD
        Machine.afterReset).2.g_state.raised = [⟨CPU.Exception.AdES, none⟩] ∧
    (CPU.WriteMemoryHalfWord BusConstants.sample 0x20000001 0xABCD
        Machine.afterReset).2.g_state.BadVaddr = 0x20000001 ∧
    (CPU.ReadMemoryWord BusConstants.sample 0x20000002 0x55 Machine.afterReset).2.1 = 0x55 ∧
    (CPU.ReadMemoryWord BusConstants.sample 0x20000002 0x55
        Machine.afterReset).2.2.g_state.raised = [⟨CPU.Exception.AdEL, none⟩] := by
  have h2 := (C10_alignment_faults BusConstants.sample 0x20000001 0xABCD 0x55
    Machine.afterReset).1 (by decide)
  have h4 := (C10_alignment_faults BusConstants.sample 0x20000002 0xABCD 0x55
    Machine.afterReset).2.1 (by decide)
  refine ⟨by decide, ?_, ?_, ?_, ?_, ?_⟩
  · rw [h2.1]
  · rw [h2.1]; rfl
  · rw [h2.1]
  · rw [h4.2]
  · rw [h4.2]; rfl

/-- The aligned word load at the unmapped address `0x20000000` is a bus
error. -/
theorem CPU.aligned_unmapped_load_raises_DBE :
    (CPU.ReadMemoryWord BusConstants.sample 0x20000000 0x55 Machine.afterReset).2.2.g_state.raised =
      [⟨CPU.Exception.DBE, none⟩] := by
  decide

/-! ### Instruction fetch, KSEG2 and unmapped KUSEG -/

/-- C11 as stated fails: with `pc = 0` and `npc = 8` (both multiples of 4) the
word read at `npc` succeeds and the fetch returns true, sets `pc` to the old
`npc` and `npc` to 12, so `pc` has advanced by 8, not by 4. -/
theorem C11_FetchInstruction_pc_not_plus_four :
    fetchAfterBranch.g_state.npc % 4 = 0 ∧
    0 ≤ (CPU.DoMemoryAccess BusConstants.sample .Read .Word fetchAfterBranch.g_state.npc
      fetchAfterBranch.g_state.next_instruction fetchAfterBranch).1 ∧
    (CPU.FetchInstruction BusConstants.sample fetchAfterBranch).1 = true ∧
    (CPU.FetchInstruction BusConstants.sample fetchAfterBranch).2.g_state.pc = 8 ∧
    (CPU.FetchInstruction BusConstants.sample fetchAfterBranch).2.g_state.npc = 12 ∧
    (CPU.FetchInstruction BusConstants.sample fetchAfterBranch).2.g_state.pc ≠
      (fetchAfterBranch.g_state.pc + 4) % 4294967296 := by
  decide

/-- C11, amended: for every state with `npc` a multiple of 4, if the word read
at `npc` succeeds, `FetchInstruction` returns true, sets `pc` to the old `npc`
and `npc` to the old `npc + 4` (mod 2^32), so `npc` advances by 4 and `pc`
advances by 4 whenever the old `npc` was `pc + 4`; if the read fails it
returns false, raises `IBE` (with the old `npc` as EPC) and leaves `pc`, `npc`
and `BadVaddr` unchanged. -/
theorem C11_FetchInstruction (K : BusConstants) (m : Machine) (hnpc : m.g_state.npc % 4 = 0) :
    (0 ≤ (CPU.DoMemoryAccess K .Read .Word m.g_state.npc m.g_state.next_instruction m).1 →
      (CPU.FetchInstruction K m).1 = true ∧
      (CPU.FetchInstruction K m).2.g_state.pc = m.g_state.npc ∧
      (CPU.FetchInstruction K m).2.g_state.npc = (m.g_state.npc + 4) % 4294967296 ∧
      (m.g_state.npc = (m.g_state.pc + 4) % 4294967296 →
        (CPU.FetchInstruction K m).2.g_state.pc = (m.g_state.pc + 4) % 4294967296) ∧
      (CPU.FetchInstruction K m).2.g_state.raised = m.g_state.raised) ∧
    ((CPU.DoMemoryAccess K .Read .Word m.g_state.npc m.g_state.next_instruction m).1 < 0 →
      (CPU.FetchInstruction K m).1 = false ∧
      (CPU.FetchInstruction K m).2.g_state.raised =
        m.g_state.raised ++ [⟨CPU.Exception.IBE, some (m.g_state.npc, false, false, 0)⟩] ∧
      (CPU.FetchInstruction K m).2.g_state.pc = m.g_state.pc ∧
      (CPU.FetchInstruction K m).2.g_state.npc = m.g_state.npc ∧
      (CPU.FetchInstruction K m).2.g_state.BadVaddr = m.g_state.BadVaddr) := by
  have _ := hnpc
  obtain ⟨dc, cc, sys, hfr⟩ :=
    CPU.DoMemoryAccess_frame K .Read .Word m.g_state.npc m.g_state.next_instruction m
  unfold CPU.FetchInstruction
  generalize CPU.DoMemoryAccess K .Read .Word m.g_state.npc m.g_state.next_instruction m = r at hfr ⊢
  obtain ⟨cycles, bits, m'⟩ := r
  simp only at hfr
  subst hfr
  constructor
  · intro hok
    have hnot : ¬ cycles < 0 := not_lt.mpr hok
    simp only [hnot, if_false, addU32, truncU32]
    exact ⟨trivial, trivial, trivial, fun h => h, trivial⟩
  · intro hfail
    simp only [hfail, if_true, CPU.RaiseExceptionAt]
    exact ⟨trivial, trivial, trivial, trivial, trivial⟩

/-- C11, at concrete inputs: after reset a fetch at `npc = 8` succeeds (RAM),
and a fetch at `npc = 0x20000000` (unmapped KUSEG) fails with `IBE`. -/
theorem C11_FetchInstruction_witness :
    (fetchAfterBranch.g_state.npc % 4 = 0 ∧
      0 ≤ (CPU.DoMemoryAccess BusConstants.sample .Read .Word fetchAfterBranch.g_state.npc
        fetchAfterBranch.g_state.next_instruction fetchAfterBranch).1) ∧
    ((CPU.FetchInstruction BusConstants.sample fetchAfterBranch).1 = true ∧
      (CPU.FetchInstruction BusConstants.sample fetchAfterBranch).2.g_state.pc = 8 ∧
      (CPU.FetchInstruction BusConstants.sample fetchAfterBranch).2.g_state.npc = 12) ∧
    (fetchUnmapped.g_state.npc % 4 = 0 ∧
      (CPU.DoMemoryAccess BusConstants.sample .Read .Word fetchUnmapped.g_state.npc
        fetchUnmapped.g_state.next_instruction fetchUnmapped).1 < 0) ∧
    ((CPU.FetchInstruction BusConstants.sample fetchUnmapped).1 = false ∧
      (CPU.FetchInstruction BusConstants.sample fetchUnmapped).2.g_state.raised =
        [⟨CPU.Exception.IBE, some (0x20000000, false, false, 0)⟩] ∧
      (CPU.FetchInstruction BusConstants.sample fetchUnmapped).2.g_state.pc = 0x1FFFFFFC ∧
      (CPU.FetchInstruction BusConstants.sample fetchUnmapped).2.g_state.npc = 0x20000000) := by
  have hs := (C11_FetchInstruction BusConstants.sample fetchAfterBranch (by decide)).1 (by decide)
  have hf := (C11_FetchInstruction BusConstants.sample fetchUnmapped (by decide)).2 (by decide)
  exact ⟨by decide, ⟨hs.1, hs.2.1, hs.2.2.1⟩, by decide, ⟨hf.1, hf.2.1, hf.2.2.1, hf.2.2.2.1⟩⟩

/-- C12: for every `v` and whatever `Isc` is, a word store of `v` to virtual
`0xFFFE0130` returns 0 ticks and changes only `cache_control`, which becomes
`v`; a following word load from `0xFFFE0130` returns 0 ticks and `v`; and an
access of any width and direction to any other address whose top three bits
are 110 or 111 returns -1 and changes nothing, neither `cache_control` nor any
other state nor the value. -/
theorem C12_kseg2_cache_control (K : BusConstants) (v dest : Nat) (m : Machine) :
    CPU.DoMemoryAccess K .Write .Word 0xFFFE0130 v m =
      (0, v, { m with g_state := { m.g_state with cache_control := v } }) ∧
    CPU.DoMemoryAccess K .Read .Word 0xFFFE0130 dest
        (CPU.DoMemoryAccess K .Write .Word 0xFFFE0130 v m).2.2 =
      (0, v, { m with g_state := { m.g_state with cache_control := v } }) ∧
    (∀ (type : MemoryAccessType) (size : MemoryAccessSize) (a value : Nat),
      (a >>> 29 = 6 ∨ a >>> 29 = 7) → a ≠ 0xFFFE0130 →
        CPU.DoMemoryAccess K type size a value m = (-1, value, m)) := by
  have h7 : (0xFFFE0130 : Nat) >>> 29 = 7 := by decide
  have hw : CPU.DoMemoryAccess K .Write .Word 0xFFFE0130 v m =
      (0, v, { m with g_state := { m.g_state with cache_control := v } }) := by
    unfold CPU.DoMemoryAccess
    rw [h7]
    rfl
  refine ⟨hw, ?_, ?_⟩
  · rw [hw]
    unfold CPU.DoMemoryAccess
    rw [h7]
    rfl
  · intro type size a value hseg hne
    unfold CPU.DoMemoryAccess
    rcases hseg with h | h <;> rw [h] <;> simp only [hne, if_false]

/-- C12, at the concrete inputs of the specification: after reset the store of
`0x0001E988` to `0xFFFE0130` reads back as `0x0001E988`, with `Isc` clear or
set, and a word load from `0xFFFE0000` is a bus error. -/
theorem C12_kseg2_cache_control_witness :
    ((0xFFFE0000 >>> 29 = 6 ∨ 0xFFFE0000 >>> 29 = 7) ∧ 0xFFFE0000 ≠ 0xFFFE0130) ∧
    (CPU.DoMemoryAccess BusConstants.sample .Read .Word 0xFFFE0130 0
        (CPU.DoMemoryAccess BusConstants.sample .Write .Word 0xFFFE0130 0x0001E988
          Machine.afterReset).2.2).2.1 = 0x0001E988 ∧
    (CPU.DoMemoryAccess BusConstants.sample .Read .Word 0xFFFE0130 0
        (CPU.DoMemoryAccess BusConstants.sample .Write .Word 0xFFFE0130 0x0001E988
          (CPU.setIsc true Machine.afterReset)).2.2).2.1 = 0x0001E988 ∧
    CPU.DoMemoryAccess BusConstants.sample .Read .Word 0xFFFE0000 0x55 Machine.afterReset =
      (-1, 0x55, Machine.afterReset) := by
  refine ⟨by decide, ?_, ?_, ?_⟩
  · rw [(C12_kseg2_cache_control BusConstants.sample 0x0001E988 0 Machine.afterReset).2.1]
  · rw [(C12_kseg2_cache_control BusConstants.sample 0x0001E988 0
      (CPU.setIsc true Machine.afterReset)).2.1]
  · exact (C12_kseg2_cache_control BusConstants.sample 0 0 Machine.afterReset).2.2 .Read .Word
      0xFFFE0000 0x55 (by decide) (by decide)

theorem CPU.DoAlignmentCheck_aligned (type : MemoryAccessType) (size : MemoryAccessSize)
    (a : Nat) (m : Machine) (h : a % size.bytes = 0) :
    CPU.DoAlignmentCheck type size a m = (true, m) := by
  cases size
  · rfl
  · have : CPU.IsAlignedPow2 a 2 = true := (CPU.IsAlignedPow2_two a).mpr h
    simp only [CPU.DoAlignmentCheck, this, if_true]
  · have : CPU.IsAlignedPow2 a 4 = true := (CPU.IsAlignedPow2_four a).mpr h
    simp only [CPU.DoAlignmentCheck, this, if_true]

/-- C13: for every word-aligned virtual address whose top three bits are 001,
010 or 011, `ReadMemoryWord` returns false and raises exactly `DBE` (no
`AdEL`); the destination word is as before and so is the whole machine apart
from the raised exception: `BadVaddr`, `pending_ticks` and all memory are
unchanged. -/
theorem C13_unmapped_kuseg_word_load (K : BusConstants) (a dest : Nat) (m : Machine)
    (hal : a % 4 = 0) (hseg : a >>> 29 = 1 ∨ a >>> 29 = 2 ∨ a >>> 29 = 3) :
    CPU.ReadMemoryWord K a dest m =
      (false, dest, { m with g_state := { m.g_state with
        raised := m.g_state.raised ++ [⟨CPU.Exception.DBE, none⟩] } }) := by
  have hacc : CPU.DoMemoryAccess K .Read .Word a dest m = (-1, dest, m) := by
    unfold CPU.DoMemoryAccess
    rcases hseg with h | h | h <;> rw [h]
  simp only [CPU.ReadMemoryWord, CPU.DoAlignmentCheck_aligned .Read .Word a m hal, hacc]
  rfl

/-- C13, at the address of the specification: the word load at `0x20000000`
after reset. -/
theorem C13_unmapped_kuseg_word_load_witness :
    (0x20000000 % 4 = 0 ∧ (0x20000000 >>> 29 = 1 ∨ 0x20000000 >>> 29 = 2 ∨ 0x20000000 >>> 29 = 3)) ∧
    CPU.ReadMemoryWord BusConstants.sample 0x20000000 0x55 Machine.afterReset =
      (false, 0x55, { Machine.afterReset with g_state := { Machine.afterReset.g_state with
        raised := Machine.afterReset.g_state.raised ++ [⟨CPU.Exception.DBE, none⟩] } }) :=
  ⟨by decide, C13_unmapped_kuseg_word_load BusConstants.sample 0x20000000 0x55 Machine.afterReset
    (by decide) (Or.inl (by decide))⟩

/-! ### Byte arrays -/

theorem writeLE_outside (mem : Nat → Nat) (off v n j : Nat) (h : j < off ∨ off + n ≤ j) :
    writeLE mem off v n j = mem j := by
  induction n generalizing mem off v with
  | zero => rfl
  | succ n ih =>
    rw [writeLE, ih _ _ _ (by omega), Function.update_noteq (by omega)]

theorem writeLE_inside (mem : Nat → Nat) (off v n k : Nat) (h : k < n) :
    writeLE mem off v n (off + k) = v / 256 ^ k % 256 := by
  induction n generalizing mem off v k with
  | zero => omega
  | succ n ih =>
    rw [writeLE]
    cases k with
    | zero =>
      have := writeLE_outside (Function.update mem off (v % 256)) (off + 1) (v / 256) n off
        (Or.inl (by omega))
      simp only [Nat.add_zero, this, Function.update_same, pow_zero, Nat.div_one]
    | succ k =>
      rw [show off + (k + 1) = off + 1 + k by omega, ih _ _ _ _ (by omega), Nat.div_div_eq_div_mul,
        pow_succ, Nat.mul_comm]

theorem readLE_congr (mem mem' : Nat → Nat) (off n : Nat)
    (h : ∀ k, k < n → mem (off + k) = mem' (off + k)) : readLE mem off n = readLE mem' off n := by
  induction n generalizing off with
  | zero => rfl
  | succ n ih =>
    rw [readLE, readLE, ih (off + 1) (fun k hk => by
      have := h (k + 1) (by omega)
      rwa [show off + (k + 1) = off + 1 + k by omega] at this)]
    have h0 := h 0 (by omega)
    rw [Nat.add_zero] at h0
    rw [h0]

theorem readLE_writeLE (mem : Nat → Nat) (off v n : Nat) :
    readLE (writeLE mem off v n) off n = v % 256 ^ n := by
  induction n generalizing mem off v with
  | zero => simp [readLE, Nat.mod_one]
  | succ n ih =>
    rw [readLE, writeLE, ih, writeLE_outside _ (off + 1) _ _ off (Or.inl (by omega)),
      Function.update_same, Nat.mod_mod, pow_succ', Nat.mod_mul]

theorem readLE_lt (mem : Nat → Nat) (off n : Nat) : readLE mem off n < 256 ^ n := by
  induction n generalizing off with
  | zero => simp [readLE]
  | succ n ih =>
    rw [readLE, pow_succ]
    have h1 := ih (off + 1)
    have h2 : mem off % 256 < 256 := Nat.mod_lt _ (by norm_num)
    nlinarith

/-! ### Scratchpad -/

theorem testBit_dcacheMask (i : Nat) :
    (4294966272 : Nat).testBit i = (decide (10 ≤ i) && decide (i < 32)) := by
  rcases Nat.lt_or_ge i 32 with hi | hi
  · interval_cases i <;> decide
  · have h : (4294966272 : Nat) < 2 ^ i :=
      lt_of_lt_of_le (by norm_num : (4294966272 : Nat) < 2 ^ 32)
        (Nat.pow_le_pow_right (by norm_num) hi)
    rw [Nat.testBit_lt_two_pow h]
    simp
    omega

/-- Masking a 32-bit address with `DCACHE_LOCATION_MASK` clears its low ten
bits. -/
theorem and_DCACHE_LOCATION_MASK (x : Nat) (h : x < 4294967296) :
    x &&& CPU.DCACHE_LOCATION_MASK = 1024 * (x / 1024) := by
  have e : 1024 * (x / 1024) = (x >>> 10) <<< 10 := by
    rw [Nat.shiftLeft_eq, Nat.shiftRight_eq_div_pow]; omega
  rw [show CPU.DCACHE_LOCATION_MASK = 4294966272 from rfl, e]
  apply Nat.eq_of_testBit_eq
  intro i
  rw [Nat.testBit_and, testBit_dcacheMask, Nat.testBit_shiftLeft, Nat.testBit_shiftRight]
  rcases Nat.lt_or_ge i 10 with h2 | h2
  · have : ¬ (10 ≤ i) := by omega
    simp [this]
  · have e2 : 10 + (i - 10) = i := by omega
    rcases Nat.lt_or_ge i 32 with hi | hi
    · simp [h2, hi, e2]
    · have hlt : x < 2 ^ i := lt_of_lt_of_le h (by
        have := Nat.pow_le_pow_right (by norm_num : 1 ≤ 2) hi
        simpa using this)
      simp [Nat.testBit_lt_two_pow hlt, e2]

/-- The mask test of the mapper selects exactly the window
`0x1F800000..0x1F8003FF`. -/
theorem scratchpad_window_iff (phys : Nat) (h : phys < 4294967296) :
    phys &&& CPU.DCACHE_LOCATION_MASK = CPU.DCACHE_LOCATION ↔
      0x1F800000 ≤ phys ∧ phys ≤ 0x1F8003FF := by
  rw [and_DCACHE_LOCATION_MASK phys h, show CPU.DCACHE_LOCATION = 528482304 from rfl]
  omega

theorem physical_lt (a : Nat) : a &&& 0x1FFFFFFF < 4294967296 := by
  have : a &&& 0x1FFFFFFF = a % 2 ^ 29 := Nat.and_pow_two_sub_one_eq_mod a 29
  rw [this]
  have := Nat.mod_lt a (by norm_num : 0 < 2 ^ 29)
  omega

/-- The offset into the scratchpad of a physical address is the low ten bits
of the virtual address. -/
theorem cache_offset_eq (a : Nat) : (a &&& 0x1FFFFFFF) &&& CPU.DCACHE_OFFSET_MASK = a &&& 0x3FF := by
  have h1 : a &&& 0x1FFFFFFF = a % 2 ^ 29 := Nat.and_pow_two_sub_one_eq_mod a 29
  have h2 : ∀ x, x &&& 0x3FF = x % 2 ^ 10 := fun x => Nat.and_pow_two_sub_one_eq_mod x 10
  rw [show CPU.DCACHE_OFFSET_MASK = 0x3FF from rfl, h2, h2, h1]
  exact Nat.mod_mod_of_dvd a (by norm_num)

/-- In KUSEG and KSEG0 an access that is not a store under `Isc` and whose
physical address passes the mask test is the scratchpad access, at 0 ticks. -/
theorem CPU.DoMemoryAccess_scratchpad (K : BusConstants) (type : MemoryAccessType)
    (size : MemoryAccessSize) (a value : Nat) (m : Machine)
    (hseg : a >>> 29 = 0 ∨ a >>> 29 = 4)
    (hIsc : ¬ (type = MemoryAccessType.Write ∧ m.g_state.Isc = true))
    (hwin : (a &&& 0x1FFFFFFF) &&& CPU.DCACHE_LOCATION_MASK = CPU.DCACHE_LOCATION) :
    CPU.DoMemoryAccess K type size a value m =
      (0, (CPU.DoScratchpadAccess type size (a &&& 0x1FFFFFFF) value m).1,
        (CPU.DoScratchpadAccess type size (a &&& 0x1FFFFFFF) value m).2) := by
  unfold CPU.DoMemoryAccess
  rcases hseg with h | h <;> rw [h] <;> simp only [hIsc, if_false, hwin, if_true]

/-- In KUSEG and KSEG0 an access that is not a store under `Isc` and whose
physical address fails the mask test is the dispatcher call. -/
theorem CPU.DoMemoryAccess_dispatch (K : BusConstants) (type : MemoryAccessType)
    (size : MemoryAccessSize) (a value : Nat) (m : Machine)
    (hseg : a >>> 29 = 0 ∨ a >>> 29 = 4)
    (hIsc : ¬ (type = MemoryAccessType.Write ∧ m.g_state.Isc = true))
    (hwin : ¬ (a &&& 0x1FFFFFFF) &&& CPU.DCACHE_LOCATION_MASK = CPU.DCACHE_LOCATION) :
    CPU.DoMemoryAccess K type size a value m =
      CPU.dispatch K type size (a &&& 0x1FFFFFFF) value m := by
  unfold CPU.DoMemoryAccess
  rcases hseg with h | h <;> rw [h] <;> simp only [hIsc, if_false, hwin]

theorem CPU.DoScratchpadAccess_sys (type : MemoryAccessType) (size : MemoryAccessSize)
    (phys value : Nat) (m : Machine) :
    (CPU.DoScratchpadAccess type size phys value m).2.sys = m.sys := by
  cases size <;> cases type <;> rfl

/-- C14 as stated fails for KSEG1: the virtual address `0xBF800000` has top
bits 101 and physical address `0x1F800000`, inside the scratchpad window, yet
with `Isc = 0` a byte store of `0x5A` there is handed to the bus dispatcher
(which treats the window as invalid, 1 tick) and leaves d-cache byte 0 at 0,
whereas the scratchpad access would have stored `0x5A` at 0 ticks; the same
store through KSEG0 (`0x9F800000`) does reach the d-cache. -/
theorem C14_kseg1_scratchpad_is_dispatched :
    (0xBF800000 >>> 29 = 5 ∧
      0x1F800000 ≤ 0xBF800000 &&& 0x1FFFFFFF ∧ 0xBF800000 &&& 0x1FFFFFFF ≤ 0x1F8003FF ∧
      Machine.afterReset.g_state.Isc = false) ∧
    (CPU.DoMemoryAccess BusConstants.sample .Write .Byte 0xBF800000 0x5A Machine.afterReset).1 = 1 ∧
    (CPU.DoMemoryAccess BusConstants.sample .Write .Byte 0xBF800000 0x5A
      Machine.afterReset).2.2.g_state.dcache 0 = 0 ∧
    (CPU.DoScratchpadAccess .Write .Byte 0x1F800000 0x5A Machine.afterReset).2.g_state.dcache 0 =
      0x5A ∧
    (CPU.DoMemoryAccess BusConstants.sample .Write .Byte 0x9F800000 0x5A Machine.afterReset).1 = 0 ∧
    (CPU.DoMemoryAccess BusConstants.sample .Write .Byte 0x9F800000 0x5A
      Machine.afterReset).2.2.g_state.dcache 0 = 0x5A := by
  decide

/-- C14, amended: with `Isc = 0`, for every width and direction: an access in
KUSEG (top bits 000) or KSEG0 (100) whose physical address (low 29 bits) lies
in `0x1F800000..0x1F8003FF` is the access to the d-cache backing store at
offset `phys & DCACHE_OFFSET_MASK`, returns 0 ticks and leaves the bus side
untouched (the dispatcher is not invoked); an access in these two segments to
any other physical address, and an access in KSEG1 (101) to any physical
address, is the dispatcher call with the physical address and returns the
dispatcher's tick count and value. -/
theorem C14_scratchpad_routing (K : BusConstants) (type : MemoryAccessType)
    (size : MemoryAccessSize) (a value : Nat) (m : Machine) (hIsc : m.g_state.Isc = false) :
    ((a >>> 29 = 0 ∨ a >>> 29 = 4) →
      (0x1F800000 ≤ a &&& 0x1FFFFFFF ∧ a &&& 0x1FFFFFFF ≤ 0x1F8003FF) →
      CPU.DoMemoryAccess K type size a value m =
        (0, (CPU.DoScratchpadAccess type size (a &&& 0x1FFFFFFF) value m).1,
          (CPU.DoScratchpadAccess type size (a &&& 0x1FFFFFFF) value m).2) ∧
      (CPU.DoMemoryAccess K type size a value m).2.2.sys = m.sys) ∧
    ((a >>> 29 = 0 ∨ a >>> 29 = 4) →
      ¬ (0x1F800000 ≤ a &&& 0x1FFFFFFF ∧ a &&& 0x1FFFFFFF ≤ 0x1F8003FF) →
      CPU.DoMemoryAccess K type size a value m =
        CPU.dispatch K type size (a &&& 0x1FFFFFFF) value m) ∧
    (a >>> 29 = 5 →
      CPU.DoMemoryAccess K type size a value m =
        CPU.dispatch K type size (a &&& 0x1FFFFFFF) value m) ∧
    CPU.dispatch K type size (a &&& 0x1FFFFFFF) value m =
      ((Bus.DispatchAccess K type size (a &&& 0x1FFFFFFF) value m.sys).1,
        (Bus.DispatchAccess K type size (a &&& 0x1FFFFFFF) value m.sys).2.1,
        { m with sys := (Bus.DispatchAccess K type size (a &&& 0x1FFFFFFF) value m.sys).2.2 }) ∧
    (CPU.DoScratchpadAccess .Read .Byte (a &&& 0x1FFFFFFF) value m).1 =
      m.g_state.dcache ((a &&& 0x1FFFFFFF) &&& CPU.DCACHE_OFFSET_MASK) % 256 ∧
    (CPU.DoScratchpadAccess .Write .Byte (a &&& 0x1FFFFFFF) value m).2.g_state.dcache =
      Function.update m.g_state.dcache ((a &&& 0x1FFFFFFF) &&& CPU.DCACHE_OFFSET_MASK) (value % 256) := by
  have hI : ¬ (type = MemoryAccessType.Write ∧ m.g_state.Isc = true) := by
    rw [hIsc]
    simp
  have hw := scratchpad_window_iff (a &&& 0x1FFFFFFF) (physical_lt a)
  refine ⟨fun hseg hwin => ?_, fun hseg hwin => ?_, fun hseg => ?_, rfl, rfl, rfl⟩
  · have h := CPU.DoMemoryAccess_scratchpad K type size a value m hseg hI (hw.mpr hwin)
    refine ⟨h, ?_⟩
    rw [h]
    exact CPU.DoScratchpadAccess_sys _ _ _ _ _
  · exact CPU.DoMemoryAccess_dispatch K type size a value m hseg hI (fun h => hwin (hw.mp h))
  · unfold CPU.DoMemoryAccess
    rw [hseg]

/-- C14, at concrete inputs after reset: a word store through KUSEG at
`0x1F800010` goes to the d-cache; a word load through KSEG1 at `0xBF800010`
and a word load through KSEG0 at `0x80000000` (RAM) go to the dispatcher. -/
theorem C14_scratchpad_routing_witness :
    (Machine.afterReset.g_state.Isc = false ∧ (0x1F800010 >>> 29 = 0 ∨ 0x1F800010 >>> 29 = 4) ∧
      (0x1F800000 ≤ 0x1F800010 &&& 0x1FFFFFFF ∧ 0x1F800010 &&& 0x1FFFFFFF ≤ 0x1F8003FF)) ∧
    (CPU.DoMemoryAccess BusConstants.sample .Write .Word 0x1F800010 0x11223344
        Machine.afterReset).2.2.sys = Machine.afterReset.sys ∧
    (0xBF800010 >>> 29 = 5 ∧
      CPU.DoMemoryAccess BusConstants.sample .Read .Word 0xBF800010 0 Machine.afterReset =
        CPU.dispatch BusConstants.sample .Read .Word (0xBF800010 &&& 0x1FFFFFFF) 0
          Machine.afterReset) ∧
    ((0x80000000 >>> 29 = 0 ∨ 0x80000000 >>> 29 = 4) ∧
      ¬ (0x1F800000 ≤ 0x80000000 &&& 0x1FFFFFFF ∧ 0x80000000 &&& 0x1FFFFFFF ≤ 0x1F8003FF) ∧
      CPU.DoMemoryAccess BusConstants.sample .Read .Word 0x80000000 0 Machine.afterReset =
        CPU.dispatch BusConstants.sample .Read .Word (0x80000000 &&& 0x1FFFFFFF) 0
          Machine.afterReset) :=
  ⟨by decide,
    ((C14_scratchpad_routing BusConstants.sample .Write .Word 0x1F800010 0x11223344
      Machine.afterReset rfl).1 (by decide) (by decide)).2,
    ⟨by decide, (C14_scratchpad_routing BusConstants.sample .Read .Word 0xBF800010 0
      Machine.afterReset rfl).2.2.1 (by decide)⟩,
    ⟨by decide, by decide, (C14_scratchpad_routing BusConstants.sample .Read .Word 0x80000000 0
      Machine.afterReset rfl).2.1 (by decide) (by decide)⟩⟩

/-- What a scratchpad store leaves in the d-cache: the low bytes of the value,
little-endian, at the offset; every other byte as before. -/
theorem CPU.DoScratchpadAccess_write_dcache (size : MemoryAccessSize) (phys v : Nat)
    (m : Machine) :
    (∀ i, i < size.bytes →
      (CPU.DoScratchpadAccess .Write size phys v m).2.g_state.dcache
        ((phys &&& CPU.DCACHE_OFFSET_MASK) + i) = v / 256 ^ i % 256) ∧
    (∀ j, (j < (phys &&& CPU.DCACHE_OFFSET_MASK) ∨
        (phys &&& CPU.DCACHE_OFFSET_MASK) + size.bytes ≤ j) →
      (CPU.DoScratchpadAccess .Write size phys v m).2.g_state.dcache j = m.g_state.dcache j) := by
  cases size
  · constructor
    · intro i hi
      have hi0 : i = 0 := by
        simp only [MemoryAccessSize.bytes] at hi
        omega
      subst hi0
      simp [CPU.DoScratchpadAccess, Truncate8]
    · intro j hj
      simp only [MemoryAccessSize.bytes] at hj
      simp only [CPU.DoScratchpadAccess]
      exact Function.update_noteq (by omega) _ _
  · constructor
    · intro i hi
      simp only [MemoryAccessSize.bytes] at hi
      simp only [CPU.DoScratchpadAccess, Truncate16]
      rw [writeLE_inside _ _ _ _ _ hi]
      interval_cases i
      · norm_num
      · norm_num
        omega
    · intro j hj
      simp only [MemoryAccessSize.bytes] at hj
      simp only [CPU.DoScratchpadAccess]
      exact writeLE_outside _ _ _ _ _ hj
  · constructor
    · intro i hi
      simp only [MemoryAccessSize.bytes] at hi
      simp only [CPU.DoScratchpadAccess]
      exact writeLE_inside _ _ _ _ _ hi
    · intro j hj
      simp only [MemoryAccessSize.bytes] at hj
      simp only [CPU.DoScratchpadAccess]
      exact writeLE_outside _ _ _ _ _ hj

/-- A scratchpad load after a scratchpad store of the same width at the same
address returns the stored value under the width's mask and changes nothing. -/
theorem CPU.DoScratchpadAccess_read_write (size : MemoryAccessSize) (phys v dest : Nat)
    (m : Machine) :
    CPU.DoScratchpadAccess .Read size phys dest (CPU.DoScratchpadAccess .Write size phys v m).2 =
      (v &&& size.mask, (CPU.DoScratchpadAccess .Write size phys v m).2) := by
  cases size
  · have h : v &&& 0xFF = v % 2 ^ 8 := Nat.and_pow_two_sub_one_eq_mod v 8
    simp only [CPU.DoScratchpadAccess, MemoryAccessSize.mask, h, ZeroExtend32, Truncate8,
      Function.update_same]
    norm_num
  · have h : v &&& 0xFFFF = v % 2 ^ 16 := Nat.and_pow_two_sub_one_eq_mod v 16
    simp only [CPU.DoScratchpadAccess, MemoryAccessSize.mask, h, ZeroExtend32, Truncate16,
      readLE_writeLE]
    norm_num
  · have h : v &&& 0xFFFFFFFF = v % 2 ^ 32 := Nat.and_pow_two_sub_one_eq_mod v 32
    simp only [CPU.DoScratchpadAccess, MemoryAccessSize.mask, h, readLE_writeLE]
    norm_num

/-- C15: with `Isc = 0`, for every width `w`, value `v` and KUSEG or KSEG0
address `a` whose physical address lies in `0x1F800000..0x1F8003FF` and that
is aligned to `w`: the store of `v` at `a` returns 0 ticks, the following load
of width `w` at `a` returns 0 ticks and `v & mask(w)` and changes nothing; the
store puts byte `i` of `v` (little-endian) at d-cache offset `(a & 0x3FF) + i`
for `i < w`, all inside the 1 KiB array, leaves every other d-cache byte as it
was and does not touch the bus side. -/
theorem C15_scratchpad_round_trip (K : BusConstants) (size : MemoryAccessSize)
    (a v dest : Nat) (m : Machine) (hIsc : m.g_state.Isc = false)
    (hseg : a >>> 29 = 0 ∨ a >>> 29 = 4)
    (hwin : 0x1F800000 ≤ a &&& 0x1FFFFFFF ∧ a &&& 0x1FFFFFFF ≤ 0x1F8003FF)
    (hal : a % size.bytes = 0) :
    (CPU.DoMemoryAccess K .Write size a v m).1 = 0 ∧
    (CPU.DoMemoryAccess K .Read size a dest (CPU.DoMemoryAccess K .Write size a v m).2.2).1 = 0 ∧
    (CPU.DoMemoryAccess K .Read size a dest (CPU.DoMemoryAccess K .Write size a v m).2.2).2.1 =
      v &&& size.mask ∧
    (CPU.DoMemoryAccess K .Read size a dest (CPU.DoMemoryAccess K .Write size a v m).2.2).2.2 =
      (CPU.DoMemoryAccess K .Write size a v m).2.2 ∧
    (∀ i, i < size.bytes →
      (CPU.DoMemoryAccess K .Write size a v m).2.2.g_state.dcache ((a &&& 0x3FF) + i) =
        v / 256 ^ i % 256) ∧
    (∀ j, (j < (a &&& 0x3FF) ∨ (a &&& 0x3FF) + size.bytes ≤ j) →
      (CPU.DoMemoryAccess K .Write size a v m).2.2.g_state.dcache j = m.g_state.dcache j) ∧
    (a &&& 0x3FF) + size.bytes ≤ 0x400 ∧
    (CPU.DoMemoryAccess K .Write size a v m).2.2.sys = m.sys := by
  have hI : ¬ (MemoryAccessType.Write = MemoryAccessType.Write ∧ m.g_state.Isc = true) := by
    rw [hIsc]
    simp
  have hw := (scratchpad_window_iff (a &&& 0x1FFFFFFF) (physical_lt a)).mpr hwin
  have hst := CPU.DoMemoryAccess_scratchpad K .Write size a v m hseg hI hw
  have hld := CPU.DoMemoryAccess_scratchpad K .Read size a dest
    (CPU.DoScratchpadAccess .Write size (a &&& 0x1FFFFFFF) v m).2 hseg (by simp) hw
  have hbytes := CPU.DoScratchpadAccess_write_dcache size (a &&& 0x1FFFFFFF) v m
  rw [cache_offset_eq] at hbytes
  have hbound : (a &&& 0x3FF) + size.bytes ≤ 0x400 := by
    have h10 : a &&& 0x3FF = a % 2 ^ 10 := Nat.and_pow_two_sub_one_eq_mod a 10
    rw [h10]
    cases size <;> simp only [MemoryAccessSize.bytes] at hal ⊢ <;> omega
  rw [hst]
  simp only []
  rw [hld, CPU.DoScratchpadAccess_read_write]
  exact ⟨trivial, rfl, rfl, rfl, hbytes.1, hbytes.2, hbound, CPU.DoScratchpadAccess_sys _ _ _ _ _⟩

/-- C15, at a concrete input: after reset, a halfword store of `0xCAFEBABE` at
the KSEG0 scratchpad address `0x9F8003FE` reads back as `0xBABE`. -/
theorem C15_scratchpad_round_trip_witness :
    (Machine.afterReset.g_state.Isc = false ∧ (0x9F8003FE >>> 29 = 0 ∨ 0x9F8003FE >>> 29 = 4) ∧
      (0x1F800000 ≤ 0x9F8003FE &&& 0x1FFFFFFF ∧ 0x9F8003FE &&& 0x1FFFFFFF ≤ 0x1F8003FF) ∧
      0x9F8003FE % MemoryAccessSize.HalfWord.bytes = 0) ∧
    (CPU.DoMemoryAccess BusConstants.sample .Read .HalfWord 0x9F8003FE 0
        (CPU.DoMemoryAccess BusConstants.sample .Write .HalfWord 0x9F8003FE 0xCAFEBABE
          Machine.afterReset).2.2).2.1 = 0xCAFEBABE &&& MemoryAccessSize.HalfWord.mask ∧
    0xCAFEBABE &&& MemoryAccessSize.HalfWord.mask = 0xBABE :=
  ⟨by decide,
    (C15_scratchpad_round_trip BusConstants.sample .HalfWord 0x9F8003FE 0xCAFEBABE 0
      Machine.afterReset rfl (by decide) (by decide) (by decide)).2.2.1,
    by decide⟩

/-! ### Bulk RAM transfers -/

theorem readLE_of_bytes (mem : Nat → Nat) (off v n : Nat)
    (h : ∀ k, k < n → mem (off + k) = v / 256 ^ k % 256) : readLE mem off n = v % 256 ^ n := by
  rw [readLE_congr mem (writeLE mem off v n) off n (fun k hk => by
    rw [h k hk, writeLE_inside _ _ _ _ _ hk]), readLE_writeLE]

theorem Bus.copyWordsToBytes_outside (mem words : Nat → Nat) (addr n j : Nat)
    (h : j < addr ∨ addr + 4 * n ≤ j) : Bus.copyWordsToBytes mem addr words n j = mem j := by
  induction n with
  | zero => rfl
  | succ n ih =>
    rw [Bus.copyWordsToBytes, writeLE_outside _ _ _ _ _ (by omega), ih (by omega)]

theorem Bus.copyWordsToBytes_inside (mem words : Nat → Nat) (addr n i k : Nat) (hi : i < n)
    (hk : k < 4) :
    Bus.copyWordsToBytes mem addr words n (addr + 4 * i + k) = words i / 256 ^ k % 256 := by
  induction n with
  | zero => omega
  | succ n ih =>
    rw [Bus.copyWordsToBytes]
    rcases Nat.lt_or_ge i n with hlt | hge
    · rw [writeLE_outside _ _ _ _ _ (by omega), ih hlt]
    · have hin : i = n := by omega
      subst hin
      exact writeLE_inside _ _ _ _ _ hk

/-- C16: for every physical address `addr` and word count `n` with
`addr + 4*n <= 0x200000` and 32-bit words `src`: `WriteWords(addr, src, n)`
returns `GetDMARAMTickCount(n)`, stores byte `k` of word `i` (little-endian) at
RAM byte `addr + 4*i + k`, leaves every other RAM byte and everything else on
the bus side unchanged (the dispatcher is not involved) except that
`InvalidateCodePages(addr, n)` has been called; a following
`ReadWords(addr, dst, n)` returns `GetDMARAMTickCount(n)`, fills the first `n`
words of `dst` with the words of `src`, leaves the rest of `dst` and the whole
bus side, RAM included, unchanged. -/
theorem C16_bulk_ram_dma (K : BusConstants) (addr n : Nat) (src dst : Nat → Nat) (s : System)
    (hrange : addr + 4 * n ≤ 0x200000) (hsrc : ∀ i, i < n → src i < 4294967296) :
    (Bus.WriteWords K addr src n s).1 = K.GetDMARAMTickCount n ∧
    (Bus.WriteWords K addr src n s).2 =
      { s with
        bus := { s.bus with m_ram := (Bus.WriteWords K addr src n s).2.bus.m_ram }
        invalidated_code_pages := s.invalidated_code_pages ++ [(addr, n)] } ∧
    (∀ i k, i < n → k < 4 →
      (Bus.WriteWords K addr src n s).2.bus.m_ram (addr + 4 * i + k) = src i / 256 ^ k % 256) ∧
    (∀ j, (j < addr ∨ addr + 4 * n ≤ j) →
      (Bus.WriteWords K addr src n s).2.bus.m_ram j = s.bus.m_ram j) ∧
    (Bus.ReadWords K addr dst n (Bus.WriteWords K addr src n s).2).1 = K.GetDMARAMTickCount n ∧
    (∀ i, i < n → (Bus.ReadWords K addr dst n (Bus.WriteWords K addr src n s).2).2.1 i = src i) ∧
    (∀ i, n ≤ i → (Bus.ReadWords K addr dst n (Bus.WriteWords K addr src n s).2).2.1 i = dst i) ∧
    (Bus.ReadWords K addr dst n (Bus.WriteWords K addr src n s).2).2.2 =
      (Bus.WriteWords K addr src n s).2 := by
  have hcond : ¬ (addr + n * 4 > Bus.RAM_BASE + Bus.RAM_SIZE) := by
    simp only [Bus.RAM_BASE, Bus.RAM_SIZE]
    omega
  have hw : Bus.WriteWords K addr src n s =
      (K.GetDMARAMTickCount n,
        { s with
          bus := { s.bus with m_ram := Bus.copyWordsToBytes s.bus.m_ram addr src n }
          invalidated_code_pages := s.invalidated_code_pages ++ [(addr, n)] }) := by
    simp only [Bus.WriteWords, hcond, if_false]
  have hr : ∀ t : System, Bus.ReadWords K addr dst n t =
      (K.GetDMARAMTickCount n, Bus.copyWordsFromBytes t.bus.m_ram addr dst n, t) := by
    intro t
    simp only [Bus.ReadWords, hcond, if_false]
  rw [hr, hw]
  refine ⟨rfl, rfl, ?_, ?_, rfl, ?_, ?_, rfl⟩
  · intro i k hi hk
    exact Bus.copyWordsToBytes_inside _ _ _ _ _ _ hi hk
  · intro j hj
    exact Bus.copyWordsToBytes_outside _ _ _ _ _ hj
  · intro i hi
    simp only [Bus.copyWordsFromBytes, hi, if_true]
    rw [readLE_of_bytes _ _ (src i) 4 (fun k hk =>
      Bus.copyWordsToBytes_inside _ _ _ _ _ _ hi hk)]
    exact Nat.mod_eq_of_lt (by
      have := hsrc i hi
      norm_num
      exact this)
  · intro i hi
    have : ¬ i < n := by omega
    simp only [Bus.copyWordsFromBytes, this, if_false]

theorem dmaSample_lt (i : Nat) (_h : i < 2) : dmaSample i < 4294967296 := by
  unfold dmaSample
  split_ifs <;> norm_num

/-- C16, at a concrete input: after reset, the two words `0x11223344`,
`0xAABBCCDD` written at `0x1FFFF8`, the last eight bytes of RAM, and read
back. -/
theorem C16_bulk_ram_dma_witness :
    (0x1FFFF8 + 4 * 2 ≤ 0x200000 ∧ ∀ i, i < 2 → dmaSample i < 4294967296) ∧
    (Bus.WriteWords BusConstants.sample 0x1FFFF8 dmaSample 2 Machine.afterReset.sys).1 =
      BusConstants.sample.GetDMARAMTickCount 2 ∧
    (Bus.WriteWords BusConstants.sample 0x1FFFF8 dmaSample 2
      Machine.afterReset.sys).2.invalidated_code_pages = [(0x1FFFF8, 2)] ∧
    (Bus.WriteWords BusConstants.sample 0x1FFFF8 dmaSample 2
      Machine.afterReset.sys).2.bus.m_ram 0x1FFFFC = 0xDD ∧
    (Bus.ReadWords BusConstants.sample 0x1FFFF8 (fun _ => 0) 2
      (Bus.WriteWords BusConstants.sample 0x1FFFF8 dmaSample 2 Machine.afterReset.sys).2).2.1 1 =
      0xAABBCCDD := by
  have h := C16_bulk_ram_dma BusConstants.sample 0x1FFFF8 2 dmaSample (fun _ => 0)
    Machine.afterReset.sys (by decide) dmaSample_lt
  refine ⟨⟨by decide, dmaSample_lt⟩, h.1, ?_, ?_, ?_⟩
  · rw [h.2.1]
    rfl
  · have := h.2.2.1 1 0 (by decide) (by decide)
    simpa [dmaSample] using this
  · have := h.2.2.2.2.2.1 1 (by decide)
    simpa [dmaSample] using this

/-! ### Typed entry points of the bus -/

/-- C17, the code at the failing input: after reset, `WriteByte(0x100, 0xAB)`
leaves RAM byte `0x100` at 0 and `ReadByte(0x100)` then returns 0 where the
claim has `0xAB`; likewise `WriteHalfWord(0x100, 0xABCD)` followed by
`ReadHalfWord(0x100)` returns 0; on the GPU register at `0x1F801810` the two
functions call `ReadRegister` and never `WriteRegister`. `WriteWord` does
store: `ReadWord(0x100)` after `WriteWord(0x100, 0xABCD1234)` returns the
word. For every input `WriteByte` and `WriteHalfWord` are the dispatch of a
`Read`. -/
theorem C17_WriteByte_dispatches_read :
    (Bus.WriteByte BusConstants.sample 0x100 0xAB Machine.afterReset.sys).2.bus.m_ram 0x100 = 0 ∧
    (Bus.ReadByte BusConstants.sample 0x100 0
      (Bus.WriteByte BusConstants.sample 0x100 0xAB Machine.afterReset.sys).2).2.1 = 0 ∧
    (Bus.ReadHalfWord BusConstants.sample 0x100 0
      (Bus.WriteHalfWord BusConstants.sample 0x100 0xABCD Machine.afterReset.sys).2).2.1 = 0 ∧
    (Bus.ReadWord BusConstants.sample 0x100 0
      (Bus.WriteWord BusConstants.sample 0x100 0xABCD1234 Machine.afterReset.sys).2).2.1 =
        0xABCD1234 ∧
    (Bus.WriteByte BusConstants.sample 0x1F801810 0xAB Machine.afterReset.sys).2.g_gpu.reads = [0] ∧
    (Bus.WriteByte BusConstants.sample 0x1F801810 0xAB Machine.afterReset.sys).2.g_gpu.writes = [] ∧
    (Bus.WriteWord BusConstants.sample 0x1F801810 0xAB Machine.afterReset.sys).2.g_gpu.writes =
      [(0, 0xAB)] ∧
    (∀ (K : BusConstants) (address value : Nat) (s : System),
      Bus.WriteByte K address value s =
        (Bus.tickCountToBool (Bus.DispatchAccess K .Read .Byte address value s).1,
          (Bus.DispatchAccess K .Read .Byte address value s).2.2) ∧
      Bus.WriteHalfWord K address value s =
        (Bus.tickCountToBool (Bus.DispatchAccess K .Read .HalfWord address value s).1,
          (Bus.DispatchAccess K .Read .HalfWord address value s).2.2)) := by
  refine ⟨by decide, by decide, by decide, by decide, by decide, by decide, by decide, ?_⟩
  intro K address value s
  exact ⟨rfl, rfl⟩

/-- C18, the code at the failing input: after reset the dispatched read of RAM
address 0 succeeds with a tick count of 0, and `ReadByte`, `ReadHalfWord` and
`ReadWord` return `ok = false` where the claim has `true`. For every input the
flag is the conversion of the tick count to `bool`: true exactly for a
non-zero count, so a count of -1 would give `true`. At the BIOS address
`0x1FC00000`, where the read costs 6, 12 or 24 ticks, the flag is `true`. -/
theorem C18_read_ok_flag_is_nonzero_ticks :
    (Bus.DispatchAccess BusConstants.sample .Read .Byte 0 0 Machine.afterReset.sys).1 = 0 ∧
    (Bus.ReadByte BusConstants.sample 0 0 Machine.afterReset.sys).1 = false ∧
    (Bus.ReadHalfWord BusConstants.sample 0 0 Machine.afterReset.sys).1 = false ∧
    (Bus.ReadWord BusConstants.sample 0 0 Machine.afterReset.sys).1 = false ∧
    (Bus.ReadByte BusConstants.sample 0x1FC00000 0 Machine.afterReset.sys).1 = true ∧
    Bus.tickCountToBool (-1) = true ∧
    (∀ (K : BusConstants) (address dest : Nat) (s : System),
      (Bus.ReadByte K address dest s).1 =
        decide ((Bus.DispatchAccess K .Read .Byte address 0 s).1 ≠ 0) ∧
      (Bus.ReadHalfWord K address dest s).1 =
        decide ((Bus.DispatchAccess K .Read .HalfWord address 0 s).1 ≠ 0) ∧
      (Bus.ReadWord K address dest s).1 =
        decide ((Bus.DispatchAccess K .Read .Word address dest s).1 ≠ 0)) := by
  refine ⟨by decide, by decide, by decide, by decide, by decide, by decide, ?_⟩
  intro K address dest s
  exact ⟨rfl, rfl, rfl⟩

/-! ### Safe probes -/

theorem CPU.probeFrame_DoMemoryAccess (K : BusConstants) (type : MemoryAccessType)
    (size : MemoryAccessSize) (a v : Nat) (m : Machine) :
    CPU.probeFrame m (CPU.DoMemoryAccess K type size a v m).2.2 := by
  obtain ⟨dc, cc, sys, hfr⟩ := CPU.DoMemoryAccess_frame K type size a v m
  rw [hfr]
  exact ⟨rfl, rfl, rfl⟩

/-- C19: for every virtual address, value and machine state, each of the six
safe probes raises no exception, leaves `pending_ticks` and `BadVaddr`
unchanged, and returns true exactly when the mapper's access returned a
non-negative tick count. -/
theorem C19_safe_probes (K : BusConstants) (a v dest : Nat) (m : Machine) :
    (CPU.probeFrame m (CPU.SafeReadMemoryByte K a dest m).2.2 ∧
      (CPU.SafeReadMemoryByte K a dest m).1 =
        decide (0 ≤ (CPU.DoMemoryAccess K .Read .Byte a 0 m).1)) ∧
    (CPU.probeFrame m (CPU.SafeReadMemoryHalfWord K a dest m).2.2 ∧
      (CPU.SafeReadMemoryHalfWord K a dest m).1 =
        decide (0 ≤ (CPU.DoMemoryAccess K .Read .HalfWord a 0 m).1)) ∧
    (CPU.probeFrame m (CPU.SafeReadMemoryWord K a dest m).2.2 ∧
      (CPU.SafeReadMemoryWord K a dest m).1 =
        decide (0 ≤ (CPU.DoMemoryAccess K .Read .Word a dest m).1)) ∧
    (CPU.probeFrame m (CPU.SafeWriteMemoryByte K a v m).2 ∧
      (CPU.SafeWriteMemoryByte K a v m).1 =
        decide (0 ≤ (CPU.DoMemoryAccess K .Write .Byte a v m).1)) ∧
    (CPU.probeFrame m (CPU.SafeWriteMemoryHalfWord K a v m).2 ∧
      (CPU.SafeWriteMemoryHalfWord K a v m).1 =
        decide (0 ≤ (CPU.DoMemoryAccess K .Write .HalfWord a v m).1)) ∧
    (CPU.probeFrame m (CPU.SafeWriteMemoryWord K a v m).2 ∧
      (CPU.SafeWriteMemoryWord K a v m).1 =
        decide (0 ≤ (CPU.DoMemoryAccess K .Write .Word a v m).1)) :=
  ⟨⟨CPU.probeFrame_DoMemoryAccess K .Read .Byte a 0 m, rfl⟩,
    ⟨CPU.probeFrame_DoMemoryAccess K .Read .HalfWord a 0 m, rfl⟩,
    ⟨CPU.probeFrame_DoMemoryAccess K .Read .Word a dest m, rfl⟩,
    ⟨CPU.probeFrame_DoMemoryAccess K .Write .Byte a v m, rfl⟩,
    ⟨CPU.probeFrame_DoMemoryAccess K .Write .HalfWord a v m, rfl⟩,
    ⟨CPU.probeFrame_DoMemoryAccess K .Write .Word a v m, rfl⟩⟩

/-- The probes at inputs where the trapping entry points raise: the misaligned
word address `0x20000002` and the unmapped address `0x20000000` give `false`
or `true` without any exception. -/
theorem CPU.safe_probe_examples :
    CPU.SafeReadMemoryWord BusConstants.sample 0x20000002 0x55 Machine.afterReset =
      (false, 0x55, Machine.afterReset) ∧
    CPU.SafeWriteMemoryWord BusConstants.sample 0x20000000 0x55 Machine.afterReset =
      (false, Machine.afterReset) ∧
    (CPU.SafeReadMemoryWord BusConstants.sample 0x00000002 0x55 Machine.afterReset).1 = true ∧
    (CPU.SafeReadMemoryWord BusConstants.sample 0x00000002 0x55
      Machine.afterReset).2.2.g_state.raised = [] := by
  refine ⟨rfl, rfl, by decide, by decide⟩

/-! ### TTY -/

/-- Writing bytes none of which is a line feed appends them, without the
carriage returns, to the line buffer and changes nothing else. -/
theorem Bus.writeTTY_no_line_feed (size : MemoryAccessSize) (t : List Nat) (s : System)
    (h : ∀ x, x ∈ t → x < 256 ∧ x ≠ 10) :
    Bus.writeTTY size t s =
      { s with bus := { s.bus with
        m_tty_line_buffer := s.bus.m_tty_line_buffer ++ t.filter (fun x => x ≠ 13) } } := by
  induction t generalizing s with
  | nil => simp [Bus.writeTTY]
  | cons x t ih =>
    have hx := h x (List.mem_cons_self x t)
    have ht : ∀ y, y ∈ t → y < 256 ∧ y ≠ 10 := fun y hy => h y (List.mem_cons_of_mem x hy)
    have hstep : Bus.writeTTY size (x :: t) s = Bus.writeTTY size t (Bus.DoWriteEXP2 size 0x23 x s) :=
      rfl
    rw [hstep, ih _ ht]
    by_cases h13 : x = 13
    · subst h13
      simp [Bus.DoWriteEXP2]
    · have h10 : x ≠ 10 := hx.2
      have h8 : Truncate8 x = x := Nat.mod_eq_of_lt hx.1
      simp [Bus.DoWriteEXP2, h13, h10, h8]

/-- A string without a zero byte is printed whole by `%s`. -/
theorem Bus.c_str_of_no_zero (text : List Nat) (h : ∀ x, x ∈ text → x ≠ 0) :
    Bus.c_str text = text := by
  unfold Bus.c_str
  rw [List.takeWhile_eq_self_iff]
  intro x hx
  simpa using h x hx

/-- C20, as amended: starting from an empty TTY buffer, for every sequence `t`
of bytes without a line feed whose bytes other than carriage returns form a
non-empty text (that is, the text with any number of carriage returns
interleaved), writing `t` and then a line feed at EXP2 offset `0x23` logs
exactly one line, leaves the buffer empty and changes nothing else. The logged
line is the text without the carriage returns up to its first zero byte; it is
exactly that text when no byte written is zero. -/
theorem C20_tty_line (size : MemoryAccessSize) (t : List Nat) (s : System)
    (hbytes : ∀ x, x ∈ t → x < 256 ∧ x ≠ 10)
    (htext : t.filter (fun x => x ≠ 13) ≠ [])
    (hempty : s.bus.m_tty_line_buffer = []) :
    Bus.writeTTY size (t ++ [10]) s =
        { s with
          tty_log := s.tty_log ++ [Bus.c_str (t.filter (fun x => x ≠ 13))]
          bus := { s.bus with m_tty_line_buffer := [] } } ∧
      ((∀ x, x ∈ t → x ≠ 0) →
        Bus.c_str (t.filter (fun x => x ≠ 13)) = t.filter (fun x => x ≠ 13)) := by
  refine ⟨?_, fun hnz => Bus.c_str_of_no_zero _ (fun x hx => hnz x (List.mem_filter.mp hx).1)⟩
  have happ : Bus.writeTTY size (t ++ [10]) s =
      Bus.DoWriteEXP2 size 0x23 10 (Bus.writeTTY size t s) := by
    simp [Bus.writeTTY, List.foldl_append]
  rw [happ, Bus.writeTTY_no_line_feed size t s hbytes, hempty, List.nil_append]
  generalize t.filter (fun x => x ≠ 13) = line at htext
  have h13 : ¬ (10 : Nat) = 13 := by decide
  simp only [Bus.DoWriteEXP2, if_true, h13, if_false, ne_eq, htext, not_false_eq_true]

/-- C20, the scenario of the specification: writing `H`, `i`, `!`, carriage
return, line feed to an empty buffer logs the one line `Hi!` and leaves the
buffer empty. -/
theorem C20_tty_line_witness :
    ((∀ x, x ∈ [72, 105, 33, 13] → x < 256 ∧ x ≠ 10) ∧
      [72, 105, 33, 13].filter (fun x => x ≠ 13) ≠ [] ∧
      Machine.afterReset.sys.bus.m_tty_line_buffer = [] ∧
      (∀ x, x ∈ [72, 105, 33, 13] → x ≠ 0)) ∧
    (Bus.writeTTY .Byte ([72, 105, 33, 13] ++ [10]) Machine.afterReset.sys).tty_log =
      [[72, 105, 33]] ∧
    (Bus.writeTTY .Byte ([72, 105, 33, 13] ++ [10]) Machine.afterReset.sys).bus.m_tty_line_buffer =
      [] := by
  have h := C20_tty_line .Byte [72, 105, 33, 13] Machine.afterReset.sys (by decide) (by decide) rfl
  refine ⟨⟨by decide, by decide, rfl, by decide⟩, ?_, ?_⟩
  · rw [h.1, h.2 (by decide)]
    rfl
  · rw [h.1]

/-- C20 as stated fails for a text with a zero byte: `A`, `0x00`, `B` is a
non-empty sequence of bytes none of which is a carriage return or a line feed,
yet writing it and then a line feed to an empty buffer logs the one line `A`,
not the three bytes written; the buffer still ends empty. -/
theorem C20_tty_line_stops_at_nul :
    (∀ x, x ∈ [65, 0, 66] → x < 256 ∧ x ≠ 10 ∧ x ≠ 13) ∧
    [65, 0, 66] ≠ ([] : List Nat) ∧
    Machine.afterReset.sys.bus.m_tty_line_buffer = [] ∧
    (Bus.writeTTY .Byte ([65, 0, 66] ++ [10]) Machine.afterReset.sys).tty_log = [[65]] ∧
    (Bus.writeTTY .Byte ([65, 0, 66] ++ [10]) Machine.afterReset.sys).tty_log ≠ [[65, 0, 66]] ∧
    (Bus.writeTTY .Byte ([65, 0, 66] ++ [10]) Machine.afterReset.sys).bus.m_tty_line_buffer = [] := by
  refine ⟨by decide, by decide, rfl, by decide, by decide, by decide⟩

/-! ### EXP1, MEMCTRL2 and invalid accesses -/

/-- Byte `k` of a little-endian read is the byte at `off + k`. -/
theorem readLE_byte (mem : Nat → Nat) (off n k : Nat) (h : k < n) :
    readLE mem off n / 256 ^ k % 256 = mem (off + k) % 256 := by
  induction n generalizing off k with
  | zero => omega
  | succ n ih =>
    rw [readLE]
    cases k with
    | zero =>
      simp only [pow_zero, Nat.div_one, Nat.add_zero]
      omega
    | succ k =>
      have hdiv : (mem off % 256 + 256 * readLE mem (off + 1) n) / 256 ^ (k + 1) =
          readLE mem (off + 1) n / 256 ^ k := by
        rw [pow_succ', ← Nat.div_div_eq_div_mul]
        congr 1
        omega
      rw [hdiv, ih (off + 1) k (by omega), show off + 1 + k = off + (k + 1) by omega]

/-- C21: with no expansion ROM loaded a read of any width at any offset returns
`0xFFFFFFFF`; with a ROM loaded a read at offset `0x20018` returns 1 for every
width, whatever the ROM holds; at any other offset with
`offset + width <= ROM size` the read returns the little-endian value of the
`width` ROM bytes at that offset, zero-extended: byte `k` of the result is ROM
byte `offset + k` and the result is below `256 ^ width`. -/
theorem C21_DoReadEXP1 (size : MemoryAccessSize) (offset : Nat) (b : Bus) :
    (b.m_exp1_rom = [] → b.DoReadEXP1 size offset = 0xFFFFFFFF) ∧
    (b.m_exp1_rom ≠ [] → b.DoReadEXP1 size 0x20018 = 1) ∧
    (b.m_exp1_rom ≠ [] → offset ≠ 0x20018 → offset + size.bytes ≤ b.m_exp1_rom.length →
      b.DoReadEXP1 size offset = readLE (fun i => b.m_exp1_rom.getD i 0) offset size.bytes ∧
      (∀ k, k < size.bytes →
        b.DoReadEXP1 size offset / 256 ^ k % 256 = b.m_exp1_rom.getD (offset + k) 0 % 256) ∧
      b.DoReadEXP1 size offset < 256 ^ size.bytes) := by
  refine ⟨fun h => ?_, fun h => ?_, fun h hoff hfit => ?_⟩
  · simp [Bus.DoReadEXP1, h]
  · have he : b.m_exp1_rom.isEmpty = false := by
      cases hr : b.m_exp1_rom with
      | nil => exact absurd hr h
      | cons x xs => rfl
    simp [Bus.DoReadEXP1, he]
  · have he : b.m_exp1_rom.isEmpty = false := by
      cases hr : b.m_exp1_rom with
      | nil => exact absurd hr h
      | cons x xs => rfl
    have hle : ¬ addU32 offset size.bytes > b.m_exp1_rom.length := by
      have : addU32 offset size.bytes ≤ offset + size.bytes := Nat.mod_le _ _
      omega
    have hval : b.DoReadEXP1 size offset =
        readLE (fun i => b.m_exp1_rom.getD i 0) offset size.bytes := by
      simp only [Bus.DoReadEXP1, he, Bool.false_eq_true, if_false, hoff, hle]
      cases size <;> simp [readLE, ZeroExtend32, MemoryAccessSize.bytes]
    rw [hval]
    exact ⟨rfl, fun k hk => readLE_byte _ _ _ _ hk, readLE_lt _ _ _⟩

/-- C21, at concrete inputs: a ROM holding `11 22 33 44 55` read as a word at
offset 1, and the read at `0x20018`, which is far past its end. -/
theorem C21_DoReadEXP1_witness :
    (exp1Sample.m_exp1_rom ≠ [] ∧ 1 ≠ 0x20018 ∧
      1 + MemoryAccessSize.Word.bytes ≤ exp1Sample.m_exp1_rom.length ∧ Bus.zero.m_exp1_rom = []) ∧
    exp1Sample.DoReadEXP1 .Word 1 =
      readLE (fun i => exp1Sample.m_exp1_rom.getD i 0) 1 MemoryAccessSize.Word.bytes ∧
    readLE (fun i => exp1Sample.m_exp1_rom.getD i 0) 1 MemoryAccessSize.Word.bytes = 0x55443322 ∧
    exp1Sample.DoReadEXP1 .HalfWord 0x20018 = 1 ∧
    Bus.zero.DoReadEXP1 .Byte 0x20018 = 0xFFFFFFFF :=
  ⟨by decide,
    ((C21_DoReadEXP1 .Word 1 exp1Sample).2.2 (by decide) (by decide) (by decide)).1,
    by decide,
    (C21_DoReadEXP1 .HalfWord 0 exp1Sample).2.1 (by decide),
    (C21_DoReadEXP1 .Byte 0x20018 Bus.zero).1 rfl⟩

/-- C22: `DoWriteMemoryControl2` at offset 0 with `v` followed by
`DoReadMemoryControl2` at offset 0 returns `v`; at every non-zero offset a read
returns `0xFFFFFFFF` and a write leaves the whole bus, `ram_size_reg`
included, as it was; `DoInvalidAccess` always returns a cost of 1 (never -1),
with the value `0xFFFFFFFF` on a read and the value unchanged on a write. -/
theorem C22_memctrl2_and_invalid_access (size size' : MemoryAccessSize)
    (type : MemoryAccessType) (offset address v value : Nat) (b : Bus) :
    (b.DoWriteMemoryControl2 size 0 v).DoReadMemoryControl2 size' 0 = v ∧
    (offset ≠ 0 →
      b.DoReadMemoryControl2 size offset = 0xFFFFFFFF ∧
      b.DoWriteMemoryControl2 size offset v = b) ∧
    (Bus.DoInvalidAccess type size address value).1 = 1 ∧
    (Bus.DoInvalidAccess type size address value).1 ≠ -1 ∧
    (Bus.DoInvalidAccess .Read size address value).2 = 0xFFFFFFFF ∧
    (Bus.DoInvalidAccess .Write size address value).2 = value := by
  have hne : (Bus.DoInvalidAccess type size address value).1 ≠ -1 := by
    show (1 : Int) ≠ -1
    decide
  refine ⟨rfl, fun h => ⟨?_, ?_⟩, rfl, hne, rfl, rfl⟩
  · simp [Bus.DoReadMemoryControl2, h, Bus.DoInvalidAccess]
  · simp [Bus.DoWriteMemoryControl2, h]

/-- C22, at concrete inputs after reset: the RAM-size register reads `0xB88`,
a halfword read at offset 2 returns the sentinel and a write at offset 2
changes nothing. -/
theorem C22_memctrl2_and_invalid_access_witness :
    (2 : Nat) ≠ 0 ∧
    (Bus.Reset Bus.zero).DoReadMemoryControl2 .Word 0 = 0xB88 ∧
    (Bus.Reset Bus.zero).DoReadMemoryControl2 .HalfWord 2 = 0xFFFFFFFF ∧
    (Bus.Reset Bus.zero).DoWriteMemoryControl2 .HalfWord 2 0x1234 = Bus.Reset Bus.zero :=
  ⟨by decide, by decide,
    ((C22_memctrl2_and_invalid_access .HalfWord .Word .Read 2 0 0x1234 0
      (Bus.Reset Bus.zero)).2.1 (by decide)).1,
    ((C22_memctrl2_and_invalid_access .HalfWord .Word .Read 2 0 0x1234 0
      (Bus.Reset Bus.zero)).2.1 (by decide)).2⟩

/-! ### Narrow reads of MEMCTRL -/

/-- C23, the code at the failing input: after reset `bios_delay_size` (offset
`0x10`) holds `0x0013243F`; `DoReadMemoryControl` for a byte at offset `0x11`
returns `0x13243F00`, the register shifted LEFT by 8, whose low byte is `0x00`
where the claim has byte lane 1, `0x24`; at offset `0x12` it returns
`0x243F0000` where the claim has `0x13`. `FIXUP_WORD_READ_VALUE`, which
`DoReadDMA` uses, gives the claimed lanes. The index `offset / 4` and the
aligned read are as claimed. For every input the result is the register
shifted left. -/
theorem C23_DoReadMemoryControl_shifts_left :
    (Bus.Reset Bus.zero).m_MEMCTRL.get (0x11 / 4) = 0x0013243F ∧
    (Bus.Reset Bus.zero).DoReadMemoryControl .Byte 0x11 = 0x13243F00 ∧
    Truncate8 ((Bus.Reset Bus.zero).DoReadMemoryControl .Byte 0x11) = 0x00 ∧
    Truncate8 (0x0013243F >>> ((0x11 &&& 3) * 8)) = 0x24 ∧
    Truncate8 (FIXUP_WORD_READ_VALUE 0x11 0x0013243F) = 0x24 ∧
    (Bus.Reset Bus.zero).DoReadMemoryControl .Byte 0x12 = 0x243F0000 ∧
    Truncate8 (0x0013243F >>> ((0x12 &&& 3) * 8)) = 0x13 ∧
    (Bus.Reset Bus.zero).DoReadMemoryControl .Word 0x10 = 0x0013243F ∧
    (∀ (size : MemoryAccessSize) (o : Nat) (b : Bus),
      b.DoReadMemoryControl size o =
        (b.m_MEMCTRL.get (o / 4) <<< ((o &&& 3) * 8)) % 4294967296) := by
  refine ⟨by decide, by decide, by decide, by decide, by decide, by decide, by decide,
    by decide, ?_⟩
  intro size o b
  rfl

/-! ### Failed narrow loads -/

/-- C24, the code at the failing input: after reset the byte load and the
halfword load at `0x20000000`, on which the mapper reports a bus error, return
false, but a destination that held `0x55` or `0x5555` holds 0 afterwards,
where the claim has it unchanged; the word load at the same address leaves
`0x55555555` in its destination. -/
theorem C24_failed_narrow_load_overwrites_destination :
    (CPU.DoMemoryAccess BusConstants.sample .Read .Byte 0x20000000 0 Machine.afterReset).1 < 0 ∧
    (CPU.ReadMemoryByte BusConstants.sample 0x20000000 0x55 Machine.afterReset).1 = false ∧
    (CPU.ReadMemoryByte BusConstants.sample 0x20000000 0x55 Machine.afterReset).2.1 = 0 ∧
    (CPU.ReadMemoryByte BusConstants.sample 0x20000000 0x55 Machine.afterReset).2.1 ≠ 0x55 ∧
    (CPU.ReadMemoryHalfWord BusConstants.sample 0x20000000 0x5555 Machine.afterReset).1 = false ∧
    (CPU.ReadMemoryHalfWord BusConstants.sample 0x20000000 0x5555 Machine.afterReset).2.1 = 0 ∧
    (CPU.ReadMemoryHalfWord BusConstants.sample 0x20000000 0x5555 Machine.afterReset).2.1 ≠
      0x5555 ∧
    (CPU.ReadMemoryWord BusConstants.sample 0x20000000 0x55555555 Machine.afterReset).2.1 =
      0x55555555 := by
  decide

/-- What a failed narrow load does, for every input: on a virtual address on
which the mapper reports a bus error, `ReadMemoryByte` and (for an even
address) `ReadMemoryHalfWord` return
false, raise exactly `DBE` and leave `pending_ticks` and `BadVaddr` unchanged;
the destination is assigned before the tick count is tested and holds the
truncation of the temporary the mapper was given, whatever it held before the
call; when the top three bits of the address are 001, 010 or 011 the
temporary is still its initial 0, so the destination holds 0 and nothing but
the raised `DBE` has changed in the machine. -/
theorem CPU.failed_narrow_loads (K : BusConstants) (a dest : Nat) (m : Machine) :
    ((CPU.DoMemoryAccess K .Read .Byte a 0 m).1 < 0 →
      (CPU.ReadMemoryByte K a dest m).1 = false ∧
      (CPU.ReadMemoryByte K a dest m).2.1 =
        Truncate8 (CPU.DoMemoryAccess K .Read .Byte a 0 m).2.1 ∧
      (CPU.ReadMemoryByte K a dest m).2.2.g_state.raised =
        m.g_state.raised ++ [⟨CPU.Exception.DBE, none⟩] ∧
      (CPU.ReadMemoryByte K a dest m).2.2.g_state.pending_ticks = m.g_state.pending_ticks ∧
      (CPU.ReadMemoryByte K a dest m).2.2.g_state.BadVaddr = m.g_state.BadVaddr) ∧
    (a % 2 = 0 → (CPU.DoMemoryAccess K .Read .HalfWord a 0 m).1 < 0 →
      (CPU.ReadMemoryHalfWord K a dest m).1 = false ∧
      (CPU.ReadMemoryHalfWord K a dest m).2.1 =
        Truncate16 (CPU.DoMemoryAccess K .Read .HalfWord a 0 m).2.1 ∧
      (CPU.ReadMemoryHalfWord K a dest m).2.2.g_state.raised =
        m.g_state.raised ++ [⟨CPU.Exception.DBE, none⟩] ∧
      (CPU.ReadMemoryHalfWord K a dest m).2.2.g_state.pending_ticks = m.g_state.pending_ticks ∧
      (CPU.ReadMemoryHalfWord K a dest m).2.2.g_state.BadVaddr = m.g_state.BadVaddr) ∧
    ((a >>> 29 = 1 ∨ a >>> 29 = 2 ∨ a >>> 29 = 3) →
      CPU.ReadMemoryByte K a dest m =
        (false, 0, { m with g_state := { m.g_state with
          raised := m.g_state.raised ++ [⟨CPU.Exception.DBE, none⟩] } }) ∧
      (a % 2 = 0 →
        CPU.ReadMemoryHalfWord K a dest m =
          (false, 0, { m with g_state := { m.g_state with
            raised := m.g_state.raised ++ [⟨CPU.Exception.DBE, none⟩] } }))) := by
  refine ⟨fun hfail => ?_, fun hal hfail => ?_, fun hseg => ⟨?_, fun hal => ?_⟩⟩
  · obtain ⟨dc, cc, sys, hfr⟩ := CPU.DoMemoryAccess_frame K .Read .Byte a 0 m
    unfold CPU.ReadMemoryByte
    simp only []
    generalize CPU.DoMemoryAccess K .Read .Byte a 0 m = r at hfr hfail ⊢
    obtain ⟨cycles, temp, m'⟩ := r
    simp only at hfr hfail
    subst hfr
    simp only [hfail, if_true, CPU.RaiseException]
    exact ⟨trivial, trivial, trivial, trivial, trivial⟩
  · obtain ⟨dc, cc, sys, hfr⟩ := CPU.DoMemoryAccess_frame K .Read .HalfWord a 0 m
    have hchk := CPU.DoAlignmentCheck_aligned .Read .HalfWord a m hal
    unfold CPU.ReadMemoryHalfWord
    rw [hchk]
    simp only []
    generalize CPU.DoMemoryAccess K .Read .HalfWord a 0 m = r at hfr hfail ⊢
    obtain ⟨cycles, temp, m'⟩ := r
    simp only at hfr hfail
    subst hfr
    simp only [hfail, if_true, CPU.RaiseException, not_true_eq_false, if_false]
    exact ⟨trivial, trivial, trivial, trivial, trivial⟩
  · have hacc : CPU.DoMemoryAccess K .Read .Byte a 0 m = (-1, 0, m) := by
      unfold CPU.DoMemoryAccess
      rcases hseg with h | h | h <;> rw [h]
    unfold CPU.ReadMemoryByte
    simp only []
    rw [hacc]
    rfl
  · have hacc : CPU.DoMemoryAccess K .Read .HalfWord a 0 m = (-1, 0, m) := by
      unfold CPU.DoMemoryAccess
      rcases hseg with h | h | h <;> rw [h]
    unfold CPU.ReadMemoryHalfWord
    rw [CPU.DoAlignmentCheck_aligned .Read .HalfWord a m hal]
    simp only []
    rw [hacc]
    rfl

/-- The byte and halfword loads at `0x20000000` after reset with destinations
holding `0x55` and `0x5555`. -/
theorem CPU.failed_narrow_loads_at_unmapped :
    ((0x20000000 >>> 29 = 1 ∨ 0x20000000 >>> 29 = 2 ∨ 0x20000000 >>> 29 = 3) ∧
      0x20000000 % 2 = 0 ∧
      (CPU.DoMemoryAccess BusConstants.sample .Read .Byte 0x20000000 0 Machine.afterReset).1 < 0) ∧
    (CPU.ReadMemoryByte BusConstants.sample 0x20000000 0x55 Machine.afterReset).1 = false ∧
    (CPU.ReadMemoryByte BusConstants.sample 0x20000000 0x55 Machine.afterReset).2.2.g_state.raised =
      Machine.afterReset.g_state.raised ++ [⟨CPU.Exception.DBE, none⟩] ∧
    CPU.ReadMemoryByte BusConstants.sample 0x20000000 0x55 Machine.afterReset =
      (false, 0, { Machine.afterReset with g_state := { Machine.afterReset.g_state with
        raised := Machine.afterReset.g_state.raised ++ [⟨CPU.Exception.DBE, none⟩] } }) ∧
    CPU.ReadMemoryHalfWord BusConstants.sample 0x20000000 0x5555 Machine.afterReset =
      (false, 0, { Machine.afterReset with g_state := { Machine.afterReset.g_state with
        raised := Machine.afterReset.g_state.raised ++ [⟨CPU.Exception.DBE, none⟩] } }) := by
  have h := CPU.failed_narrow_loads BusConstants.sample 0x20000000 0x55 Machine.afterReset
  have h' := CPU.failed_narrow_loads BusConstants.sample 0x20000000 0x5555 Machine.afterReset
  have hb := h.1 (by decide)
  exact ⟨by decide, hb.1, hb.2.2.1, (h.2.2 (Or.inl (by decide))).1,
    (h'.2.2 (Or.inl (by decide))).2 (by decide)⟩

/-! ### Bounds of the timing model -/

/-- The clamped triple of the specification is built from the access times of
step 9. -/
theorem specMemoryTiming_eq_specAccessTimes (m : MEMDELAY) (c : COMDELAY) :
    specMemoryTiming m c =
      (max ((specAccessTimes m c).1 - 1) 0, max ((specAccessTimes m c).2.1 - 1) 0,
        max ((specAccessTimes m c).2.2 - 1) 0) :=
  rfl

/-- The access times before the subtraction: `6 <= byte <= half < word <= 184`. -/
theorem specAccessTimes_bounds (m : MEMDELAY) (c : COMDELAY) :
    6 ≤ (specAccessTimes m c).1 ∧ (specAccessTimes m c).1 ≤ (specAccessTimes m c).2.1 ∧
    (specAccessTimes m c).2.1 < (specAccessTimes m c).2.2 ∧ (specAccessTimes m c).2.2 ≤ 184 := by
  have ha := m.access_time_le
  have h0 := c.com0_le
  have h2 := c.com2_le
  have h3 := c.com3_le
  unfold specAccessTimes
  lift_lets
  intro gain mn f3 s3 f s
  have hgain : -1 ≤ gain ∧ gain ≤ 29 := by
    simp only [gain]
    split_ifs <;> omega
  have hmn : 0 ≤ mn ∧ mn ≤ 15 := by
    simp only [mn]
    split_ifs <;> omega
  have hf3 : f3 = (if gain < 6 then gain + 1 else gain) + ((m.access_time : Int) + 2) := rfl
  have hs3 : s3 = gain + ((m.access_time : Int) + 2) := rfl
  have hf : f = if f3 < mn + 6 then mn + 6 else f3 := rfl
  have hs : s = if s3 < mn + 2 then mn + 2 else s3 := rfl
  clear_value gain mn f3 s3 f s
  have hfb : 6 ≤ f ∧ f ≤ 46 := by
    split_ifs at hf3 hf <;> omega
  have hsb : 2 ≤ s ∧ s ≤ 46 := by
    split_ifs at hs <;> omega
  simp only []
  split_ifs <;> omega

/-- C25: for every MEMDELAY value and COMDELAY value, the triple `(b, h, w)`
returned by `CalculateMemoryTiming` satisfies `5 <= b <= h < w` (and
`w <= 183`); it is the triple of access times of the integer formula minus
one, so the clamps at zero never take effect, no returned count is negative,
and the wrapped signed 32-bit arithmetic of the code agrees with unbounded
integer arithmetic, i.e. never overflows. -/
theorem C25_timing_bounds (m : MEMDELAY) (c : COMDELAY) :
    5 ≤ (CalculateMemoryTiming m c).1 ∧
    (CalculateMemoryTiming m c).1 ≤ (CalculateMemoryTiming m c).2.1 ∧
    (CalculateMemoryTiming m c).2.1 < (CalculateMemoryTiming m c).2.2 ∧
    (CalculateMemoryTiming m c).2.2 ≤ 183 ∧
    CalculateMemoryTiming m c =
      ((specAccessTimes m c).1 - 1, (specAccessTimes m c).2.1 - 1, (specAccessTimes m c).2.2 - 1) ∧
    (0 ≤ (CalculateMemoryTiming m c).1 ∧ 0 ≤ (CalculateMemoryTiming m c).2.1 ∧
      0 ≤ (CalculateMemoryTiming m c).2.2) := by
  obtain ⟨h1, h2, h3, h4⟩ := specAccessTimes_bounds m c
  have heq : CalculateMemoryTiming m c =
      ((specAccessTimes m c).1 - 1, (specAccessTimes m c).2.1 - 1,
        (specAccessTimes m c).2.2 - 1) := by
    rw [CalculateMemoryTiming_unwrapped, specMemoryTiming_eq_specAccessTimes,
      max_eq_left (by omega), max_eq_left (by omega), max_eq_left (by omega)]
  rw [heq]
  simp only []
  refine ⟨by linarith, by linarith, by linarith, by linarith, trivial, by linarith, by linarith,
    by linarith⟩

/-- The bounds of the timing model are attained: `(5, 5, 7)` for a 16-bit bus
with every field zero and `(45, 91, 183)` for an 8-bit bus with every field
at its maximum. -/
theorem CalculateMemoryTiming_extremes :
    CalculateMemoryTiming ⟨0x1000⟩ ⟨0⟩ = (5, 5, 7) ∧
    CalculateMemoryTiming ⟨0x0FF0⟩ ⟨0xFFFF⟩ = (45, 91, 183) := by
  decide

end Duckstation
